import Mathlib

/-!
Verification of the AI-assistance engine of the Task-Management-System backend
(`backend/app/services/ai_service.py`, with the input schema from
`backend/app/schemas/task.py` and the ranking logic shared with
`backend/app/services/task_service.py`).

Python floats are modelled as exact numbers (`ℚ` where the code only adds,
divides and compares, `ℝ` where square roots occur); Python lists as `List`,
dicts as insertion-ordered association lists, possibly-missing dict keys and
`None` as `Option`, and raising code as `Except PyError`.
-/

/-- Error values standing for the Python exception classes that the embedded
code can raise (`TypeError`, `ValueError`, pydantic `ValidationError`,
`AttributeError`, and anything raised by the remote client). -/
inductive PyError where
  | typeError
  | valueError
  | validationError
  | attributeError
  | runtimeError
deriving DecidableEq, Repr

/-- Decides whether the character list `n` is a prefix of `h`. -/
def charsPre : List Char → List Char → Bool
  | [], _ => true
  | _ :: _, [] => false
  | a :: as, b :: bs => a == b && charsPre as bs

/-- Decides whether `n` occurs as a contiguous sublist of `h`. -/
def charsSub (n : List Char) : List Char → Bool
  | [] => charsPre n []
  | h :: hs => charsPre n (h :: hs) || charsSub n hs

/-- Python's substring test `needle in hay`. -/
def strIn (needle hay : String) : Bool :=
  charsSub needle.toList hay.toList

/-- Python's `text[:k]` on a string. -/
def pySliceStr (text : String) (k : ℕ) : String :=
  String.mk (text.toList.take k)

/-- Python's `str.strip()`: remove leading and trailing whitespace. -/
def pyStrip (s : String) : String :=
  String.mk (((s.toList.dropWhile Char.isWhitespace).reverse.dropWhile
    Char.isWhitespace).reverse)

/-- Python's `text.split()` with no separator: split on whitespace runs,
dropping empty words. -/
def pySplit (text : String) : List String :=
  (text.split (fun c => c.isWhitespace)).filter (fun w => w ≠ "")

/-- Python's `str.lower()` (character-wise lowering, as in the ASCII and
CJK ranges the code's keyword matching exercises). -/
def toLowerStr (s : String) : String :=
  String.mk (s.toList.map Char.toLower)

/-- The `TaskPriority` enum of `app/models/task.py`. -/
inductive TaskPriority where
  | low
  | medium
  | high
deriving DecidableEq, Repr

/-- The lower-cased `title + " " + (description or "")` text that every
fallback heuristic of `ai_service.py` matches keywords against. -/
def heurText (title : String) (description : Option String) : String :=
  toLowerStr (title ++ " " ++ description.getD "")

/-- Embeds `AIService._fallback_suggest_priority`. -/
def fallbackSuggestPriority (title : String) (description : Option String) :
    TaskPriority × String :=
  let text := heurText title description
  if ["urgent", "asap", "critical", "blocker", "紧急", "立即"].any
      (fun w => strIn w text) then
    (TaskPriority.high, "Contains urgency keywords")
  else if ["someday", "maybe", "nice to have", "低优先"].any
      (fun w => strIn w text) then
    (TaskPriority.low, "Contains low-priority keywords")
  else
    (TaskPriority.medium, "Default priority")

/-- The ordered category keyword table of `AIService._fallback_categorize`. -/
def categoryKeywords : List (String × List String) :=
  [("work", ["work", "meeting", "project", "report", "client", "deadline",
      "工作", "会议", "项目", "报告", "客户", "截止", "办公", "汇报", "同事", "老板", "公司"]),
   ("personal", ["personal", "self", "个人", "自己", "私人"]),
   ("health", ["health", "gym", "exercise", "doctor", "hospital", "medicine",
      "健康", "运动", "医生", "锻炼", "医院", "检查", "体检", "药", "治疗", "看病", "身体"]),
   ("finance", ["money", "pay", "bill", "budget", "invest", "bank",
      "钱", "支付", "账单", "投资", "银行", "财务", "工资", "转账", "理财"]),
   ("learning", ["learn", "study", "course", "book", "read", "tutorial",
      "学习", "课程", "阅读", "教程", "培训", "知识", "技能"]),
   ("social", ["friend", "party", "dinner", "meet",
      "朋友", "聚会", "约会", "聚餐", "社交", "见面"]),
   ("home", ["home", "clean", "repair", "house",
      "家", "打扫", "修理", "整理", "家务", "房间", "装修"]),
   ("creative", ["design", "create", "art", "write", "设计", "创作", "艺术", "写作", "画"]),
   ("urgent", ["urgent", "asap", "emergency", "important", "critical",
      "紧急", "立即", "马上", "重要", "尽快"]),
   ("shopping", ["buy", "shop", "purchase", "order", "购买", "购物", "买", "下单", "商城"])]

/-- Embeds `AIService._fallback_categorize`. -/
def fallbackCategorize (title : String) (description : Option String) :
    String × List String × String :=
  let text := heurText title description
  let matched := categoryKeywords.foldl
    (fun acc p => if p.2.any (fun kw => strIn kw text) then acc ++ [p.1] else acc) []
  match matched with
  | [] => ("other", [], "未能匹配到具体分类")
  | c :: rest => (c, rest.take 2, "基于关键词匹配: " ++ c)

/-- The tag keyword table of `AIService._fallback_suggest_tags`. -/
def tagCategories : List (String × List String) :=
  [("development", ["code", "bug", "feature", "api", "database", "开发", "代码"]),
   ("meeting", ["meeting", "call", "discussion", "sync", "会议"]),
   ("documentation", ["doc", "write", "document", "readme", "文档"]),
   ("design", ["design", "ui", "ux", "mockup", "设计"]),
   ("testing", ["test", "qa", "quality", "测试"]),
   ("research", ["research", "investigate", "explore", "研究"])]

/-- Embeds `AIService._fallback_suggest_tags`. -/
def fallbackSuggestTags (title : String) (description : Option String) :
    List String × String :=
  let text := heurText title description
  let tags := tagCategories.foldl
    (fun acc p => if p.2.any (fun kw => strIn kw text) then acc ++ [p.1] else acc) []
  (tags.take 5, "Based on keyword matching")

/-- Keyword matching as the spec describes it: some keyword of the list occurs
in the lower-cased `title + " " + description` text. -/
def keywordHit (ws : List String) (title : String) (description : Option String) : Prop :=
  ∃ w ∈ ws, strIn w (heurText title description) = true

/-- Values produced by Python's `json.loads`. -/
inductive Json where
  | null
  | bool (b : Bool)
  | num (q : ℚ)
  | str (s : String)
  | arr (items : List Json)
  | obj (fields : List (String × Json))

/-- Python's `data.get(k, d)` on the parsed JSON object. -/
def jget (fields : List (String × Json)) (k : String) (d : Json) : Json :=
  match fields.find? (fun p => p.1 == k) with
  | some p => p.2
  | none => d

/-- An opening brace, kept out of string literals. -/
def lbrace : Char := Char.ofNat 123

/-- A closing brace. -/
def rbrace : Char := Char.ofNat 125

/-- The JSON-extraction step `re.search(r'\x7b.*\x7d', result, re.DOTALL)` of
`ai_service.py`: the leftmost opening brace together with the greedy `.*` up to
the last closing brace, if the latter lies beyond the former. -/
def extractJson (s : String) : Option String :=
  let cs := s.toList
  match cs.findIdx? (fun c => c == lbrace) with
  | none => none
  | some i =>
    match cs.reverse.findIdx? (fun c => c == rbrace) with
    | none => none
    | some rj =>
      let j := cs.length - 1 - rj
      if i < j then some (String.mk ((cs.drop i).take (j - i + 1))) else none

/-- The `ParsedTaskFromNL` pydantic schema of `app/schemas/task.py`
(`confidence` carries the `ge=0, le=1` field constraint). -/
structure ParsedTaskFromNL where
  title : String
  description : Option String
  priority : TaskPriority
  tags : List String
  due_date : Option String
  confidence : ℚ
deriving DecidableEq, Repr

/-- The `SubTask` pydantic schema of `app/schemas/task.py`. -/
structure SubTask where
  title : String
  description : Option String
  estimated_effort : Option String
  order : ℤ
deriving DecidableEq, Repr

/-- Python's `TaskPriority(value)` enum constructor: raises `ValueError` on
anything but the three member strings. -/
def TaskPriority.fromJson : Json → Except PyError TaskPriority
  | .str "low" => .ok .low
  | .str "medium" => .ok .medium
  | .str "high" => .ok .high
  | _ => .error .valueError

/-- Pydantic validation of a required `str` field. -/
def asStr : Json → Except PyError String
  | .str s => .ok s
  | _ => .error .validationError

/-- Pydantic validation of an `Optional[str]` field. -/
def asOptStr : Json → Except PyError (Option String)
  | .null => .ok none
  | .str s => .ok (some s)
  | _ => .error .validationError

/-- Pydantic validation of a `List[str]` field. -/
def asStrList : Json → Except PyError (List String)
  | .arr items => items.mapM asStr
  | _ => .error .validationError

/-- Pydantic validation of the `confidence: float` field with `ge=0, le=1`. -/
def asConfidence : Json → Except PyError ℚ
  | .num q => if 0 ≤ q ∧ q ≤ 1 then .ok q else .error .validationError
  | _ => .error .validationError

/-- Pydantic validation of an `int` field (integral numbers only). -/
def asInt : Json → Except PyError ℤ
  | .num q => if q.den = 1 then .ok q.num else .error .validationError
  | _ => .error .validationError

/-- Embeds `AIService._fallback_parse`. -/
def fallbackParse (text : String) : ParsedTaskFromNL :=
  let title := if text.length > 100 then pySliceStr text 100 else text
  let textLower := toLowerStr text
  let priority :=
    if ["urgent", "asap", "important", "critical", "紧急", "重要"].any
        (fun w => strIn w textLower) then TaskPriority.high
    else if ["someday", "maybe", "when possible", "低优先", "空闲"].any
        (fun w => strIn w textLower) then TaskPriority.low
    else TaskPriority.medium
  let tagKeywords : List (String × List String) :=
    [("work", ["work", "meeting", "project", "report", "工作", "会议"]),
     ("personal", ["personal", "home", "family", "个人", "家"]),
     ("shopping", ["buy", "shop", "purchase", "groceries", "购买", "购物"]),
     ("health", ["doctor", "gym", "exercise", "health", "健康", "运动"])]
  let tags := tagKeywords.foldl
    (fun acc p => if p.2.any (fun kw => strIn kw textLower) then acc ++ [p.1] else acc) []
  ⟨title, none, priority, tags, none, 1/2⟩

/-- The construction `ParsedTaskFromNL(title=data.get(...), ...)` inside the
`try` block of `parse_natural_language_task`; any pydantic or enum failure
surfaces as an `Except.error`, which the caller catches. -/
def buildParsed (text : String) : Json → Except PyError ParsedTaskFromNL
  | .obj fields => do
    let title ← asStr (jget fields "title" (.str (pySliceStr text 100)))
    let description ← asOptStr (jget fields "description" .null)
    let priority ← TaskPriority.fromJson (jget fields "priority" (.str "medium"))
    let tags ← asStrList (jget fields "tags" (.arr []))
    let due_date ← asOptStr (jget fields "due_date" .null)
    let confidence ← asConfidence (jget fields "confidence" (.num (8/10)))
    .ok ⟨title, description, priority, tags, due_date, confidence⟩
  | _ => .error .attributeError

/-- Python's `value[:5]` slice used on `data.get("tags", [])`: slices lists and
strings, raises `TypeError` on anything else. -/
def pySlice5 : Json → Except PyError Json
  | .arr items => .ok (.arr (items.take 5))
  | .str s => .ok (.str (pySliceStr s 5))
  | _ => .error .typeError

/-- The extraction step of `suggest_tags`: `data.get("tags", [])[:5]` and
`data.get("reasoning", "")`. -/
def buildTags : Json → Except PyError (Json × Json)
  | .obj fields => do
    let tags ← pySlice5 (jget fields "tags" (.arr []))
    .ok (tags, jget fields "reasoning" (.str ""))
  | _ => .error .attributeError

/-- The extraction step of `suggest_priority`: lower-case the priority string
(raising on a non-string), keep it only when it is a valid member, defaulting
to medium otherwise. -/
def buildPriority : Json → Except PyError (TaskPriority × Json)
  | .obj fields => do
    let ps ← (match jget fields "priority" (.str "medium") with
      | .str s => .ok (toLowerStr s)
      | _ => .error .attributeError)
    let priority := if ps = "low" then TaskPriority.low
      else if ps = "medium" then TaskPriority.medium
      else if ps = "high" then TaskPriority.high
      else TaskPriority.medium
    .ok (priority, jget fields "reasoning" (.str ""))
  | _ => .error .attributeError

/-- One `SubTask(...)` construction of `breakdown_task` at 0-based position `i`
in the returned sequence. -/
def buildSubTask (i : ℕ) : Json → Except PyError SubTask
  | .obj fields => do
    let title ← asStr (jget fields "title" (.str ""))
    let description ← asOptStr (jget fields "description" .null)
    let estimated_effort ← asOptStr (jget fields "estimated_effort" .null)
    let order ← asInt (jget fields "order" (.num ((i : ℚ) + 1)))
    .ok ⟨title, description, estimated_effort, order⟩
  | _ => .error .attributeError

/-- The extraction step of `breakdown_task`. -/
def buildBreakdown : Json → Except PyError (List SubTask × Json)
  | .obj fields => do
    let subtasks ← (match jget fields "subtasks" (.arr []) with
      | .arr items => items.enum.mapM (fun p => buildSubTask p.1 p.2)
      | _ => .error .typeError)
    .ok (subtasks, jget fields "reasoning" (.str ""))
  | _ => .error .attributeError

/-- The extraction step of `categorize_task`: three unvalidated `data.get`
calls. -/
def buildCategorize : Json → Except PyError (Json × Json × Json)
  | .obj fields =>
    .ok (jget fields "category" (.str "other"),
      jget fields "subcategories" (.arr []),
      jget fields "reasoning" (.str ""))
  | _ => .error .attributeError

/-- The common remote-then-fallback skeleton shared by the JSON-extracting
operations of `ai_service.py`: unavailable client, a raising remote call, a
response without a brace-delimited JSON object, or a raising extraction step
all end in the fallback value; only a successful extraction is returned. -/
def aiAttempt {α : Type} (fallback : α) (available : Bool)
    (remote : Except PyError String) (build : String → Except PyError α) : α :=
  if !available then fallback
  else
    match remote with
    | .error _ => fallback
    | .ok content =>
      match extractJson (pyStrip content) with
      | none => fallback
      | some jstr =>
        match build jstr with
        | .ok r => r
        | .error _ => fallback

/-- Embeds `AIService.parse_natural_language_task`; `jsonLoads` stands for the
behavior of `json.loads`, `remote` for the chat-completion call. -/
def parseNaturalLanguageTask (available : Bool)
    (jsonLoads : String → Except PyError Json) (remote : Except PyError String)
    (text : String) : ParsedTaskFromNL :=
  aiAttempt (fallbackParse text) available remote
    (fun jstr => (jsonLoads jstr).bind (buildParsed text))

/-- Embeds `AIService.suggest_tags` (the tag list and reasoning are returned
unvalidated, hence as JSON values; the fallback's strings are injected). -/
def suggestTags (available : Bool) (jsonLoads : String → Except PyError Json)
    (remote : Except PyError String) (title : String)
    (description : Option String) : Json × Json :=
  let fb := fallbackSuggestTags title description
  aiAttempt (.arr (fb.1.map .str), .str fb.2) available remote
    (fun jstr => (jsonLoads jstr).bind buildTags)

/-- Embeds `AIService.suggest_priority`. -/
def suggestPriority (available : Bool) (jsonLoads : String → Except PyError Json)
    (remote : Except PyError String) (title : String)
    (description : Option String) : TaskPriority × Json :=
  let fb := fallbackSuggestPriority title description
  aiAttempt (fb.1, .str fb.2) available remote
    (fun jstr => (jsonLoads jstr).bind buildPriority)

/-- Embeds `AIService._fallback_breakdown`. -/
def fallbackBreakdown (title : String) : List SubTask × String :=
  ([⟨"Plan: " ++ title, some "Define scope and requirements", some "30 min", 1⟩,
    ⟨"Execute: " ++ title, some "Complete the main work", some "2 hours", 2⟩,
    ⟨"Review: " ++ title, some "Review and verify completion", some "30 min", 3⟩],
   "Generic breakdown without AI")

/-- Embeds `AIService.breakdown_task`. -/
def breakdownTask (available : Bool) (jsonLoads : String → Except PyError Json)
    (remote : Except PyError String) (title : String)
    (description : Option String) : List SubTask × Json :=
  let fb := fallbackBreakdown title
  aiAttempt (fb.1, .str fb.2) available remote
    (fun jstr => (jsonLoads jstr).bind buildBreakdown)

/-- Embeds `AIService.categorize_task`. -/
def categorizeTask (available : Bool) (jsonLoads : String → Except PyError Json)
    (remote : Except PyError String) (title : String)
    (description : Option String) : Json × Json × Json :=
  let fb := fallbackCategorize title description
  aiAttempt (.str fb.1, .arr (fb.2.1.map .str), .str fb.2.2) available remote
    (fun jstr => (jsonLoads jstr).bind buildCategorize)

/-- A task record as handed to `summarize_tasks` by `get_task_summary`
(always carries `title`, `status` and `priority` strings). -/
structure SummTask where
  title : String
  status : String
  priority : String
deriving DecidableEq, Repr

/-- Embeds `AIService._fallback_summarize`. -/
def fallbackSummarize (tasks : List SummTask) : String :=
  if tasks = [] then "暂无任务需要总结。"
  else
    let total := tasks.length
    let completed := (tasks.filter (fun t => t.status == "completed")).length
    let in_progress := (tasks.filter (fun t => t.status == "in_progress")).length
    let pending := (tasks.filter (fun t => t.status == "pending")).length
    let high_priority := (tasks.filter (fun t => t.priority == "high")).length
    "您共有 " ++ toString total ++ " 个任务：" ++ toString completed ++
      " 个已完成，" ++ toString in_progress ++ " 个进行中，" ++ toString pending ++
      " 个待处理。其中 " ++ toString high_priority ++ " 个是高优先级任务。"

/-- Embeds `AIService.summarize_tasks` (no JSON stage: a successful remote
call returns the stripped content directly). -/
def summarizeTasks (available : Bool) (remote : Except PyError String)
    (tasks : List SummTask) : String :=
  if !available || tasks = [] then fallbackSummarize tasks
  else
    match remote with
    | .ok content => pyStrip content
    | .error _ => fallbackSummarize tasks

/-- The `NaturalLanguageTaskInput` pydantic schema (`text` with
`min_length=1`). -/
structure NaturalLanguageTaskInput where
  text : String
deriving DecidableEq, Repr

/-- The request-validation failure FastAPI reports when the body violates the
schema, as distinguished from any remote/runtime failure. -/
inductive ValidationFailure where
  | minLength
deriving DecidableEq, Repr

/-- Pydantic validation of `NaturalLanguageTaskInput`. -/
def NaturalLanguageTaskInput.validate (text : String) :
    Except ValidationFailure NaturalLanguageTaskInput :=
  if 1 ≤ text.length then .ok ⟨text⟩ else .error .minLength

/-- The `POST /tasks/ai/parse` endpoint of `app/routes/tasks.py`: validate the
body against `NaturalLanguageTaskInput`, then run the parsing operation. -/
def parseEndpoint (available : Bool) (jsonLoads : String → Except PyError Json)
    (remote : Except PyError String) (text : String) :
    Except ValidationFailure ParsedTaskFromNL :=
  (NaturalLanguageTaskInput.validate text).map
    (fun inp => parseNaturalLanguageTask available jsonLoads remote inp.text)

/-- A task record as consumed by `generate_task_insights`: a dict whose
`status`, `priority` and `tags` keys may be absent. -/
structure PyTask where
  status : Option String
  priority : Option String
  tags : Option (List String)
deriving DecidableEq, Repr

/-- The dict returned by `generate_task_insights`: the distribution keys and
`completion_rate` are present only on the non-empty branch, hence `Option`. -/
structure InsightsReport where
  total : ℕ
  by_status : Option (List (String × ℕ))
  by_priority : Option (List (String × ℕ))
  by_tag : Option (List (String × ℕ))
  completion_rate : Option ℚ
  insights : List String
  recommendations : List String
deriving DecidableEq, Repr

/-- Python's `d.get(k, default)` on a counter dict modelled as an
insertion-ordered association list. -/
def assocGetD (m : List (String × ℕ)) (k : String) (d : ℕ) : ℕ :=
  match m.find? (fun p => p.1 == k) with
  | some p => p.2
  | none => d

/-- Python's `d[k] = d.get(k, 0) + 1` on an insertion-ordered counter dict. -/
def bump (m : List (String × ℕ)) (k : String) : List (String × ℕ) :=
  if (m.find? (fun p => p.1 == k)).isSome then
    m.map (fun p => if p.1 == k then (p.1, p.2 + 1) else p)
  else m ++ [(k, 1)]

/-- Counting a list of labels into an insertion-ordered counter dict. -/
def tally (l : List String) : List (String × ℕ) := l.foldl bump []

/-- The distinct labels of `l` in first-encountered order. -/
def distinctFirst (l : List String) : List String :=
  l.foldl (fun acc x => if x ∈ acc then acc else acc ++ [x]) []

/-- Stable insertion of `x` into a descending-by-`key` list: `x` goes after
every element whose key is at least `key x`. -/
def insertDescBy {α β : Type} [LinearOrder β] (key : α → β) (x : α) :
    List α → List α
  | [] => [x]
  | y :: ys => if key y < key x then x :: y :: ys else y :: insertDescBy key x ys

/-- Python's stable descending `sorted(l, key=key, reverse=True)`. -/
def sortDescBy {α β : Type} [LinearOrder β] (key : α → β) (l : List α) : List α :=
  l.foldl (fun acc x => insertDescBy key x acc) []

/-- Model of Python's `"%.1f"`-style formatting (`f"...{x:.1f}"`) on the exact
rational standing in for the float: round to tenths, print one decimal. -/
def fmt1 (q : ℚ) : String :=
  let n : ℤ := round (q * 10)
  toString (n / 10) ++ "." ++ toString (n % 10)

/-- Python's `task.get("status", "pending")`. -/
def statusOf (t : PyTask) : String := t.status.getD "pending"

/-- Python's `task.get("priority", "medium")`. -/
def priorityOf (t : PyTask) : String := t.priority.getD "medium"

/-- Python's `task.get("tags", [])`. -/
def tagsOf (t : PyTask) : List String := t.tags.getD []

/-- Embeds `AIService.generate_task_insights`. -/
def generateTaskInsights (tasks : List PyTask) : InsightsReport :=
  if tasks = [] then ⟨0, none, none, none, none, [], []⟩
  else
    let acc := tasks.foldl
      (fun (acc : List (String × ℕ) × List (String × ℕ) × List (String × ℕ)) t =>
        (bump acc.1 (statusOf t),
         bump acc.2.1 (priorityOf t),
         (tagsOf t).foldl bump acc.2.2))
      ([], [], [])
    let total := tasks.length
    let by_status := acc.1
    let by_priority := acc.2.1
    let by_tag := acc.2.2
    let pendingHit := (assocGetD by_status "pending" 0 : ℚ) > (total : ℚ) * (1/2)
    let highCount := assocGetD by_priority "high" 0
    let completion_rate : ℚ :=
      if (total : ℚ) > 0 then (assocGetD by_status "completed" 0 : ℚ) / (total : ℚ) * 100
      else 0
    let top_tags := (sortDescBy (fun p => p.2) by_tag).take 3
    let insights :=
      (if pendingHit then ["超过一半的任务仍在待处理状态"] else []) ++
      (if highCount > 3 then ["您有 " ++ toString highCount ++ " 个高优先级任务"] else []) ++
      ["任务完成率: " ++ fmt1 completion_rate ++ "%"] ++
      (if by_tag ≠ [] then
        ["最常用的标签: " ++ String.intercalate ", " (top_tags.map (fun p => p.1))]
      else [])
    let recommendations :=
      (if pendingHit then ["建议优先处理积压的任务"] else []) ++
      (if highCount > 3 then ["考虑先完成高优先级任务"] else [])
    ⟨total, some by_status, some by_priority, some by_tag, some completion_rate,
      insights, recommendations⟩

/-- Sum of squares of a vector, `‖l‖²`. -/
def sumSq (l : List ℝ) : ℝ := (l.map (fun x => x ^ 2)).sum

/-- Dot product of two vectors of equal (or truncated-to-common) length. -/
def dotl (a b : List ℝ) : ℝ := (List.zipWith (fun x y => x * y) a b).sum

/-- Euclidean norm, `np.linalg.norm`. -/
noncomputable def norml (l : List ℝ) : ℝ := Real.sqrt (sumSq l)

/-- One step `embedding[ord(char) % 256] += 1.0 / (i + 1)` of the fallback
embedding loop. -/
noncomputable def addChar (v : List ℝ) (i : ℕ) (c : Char) : List ℝ :=
  v.set (c.toNat % 256) (v.getD (c.toNat % 256) 0 + 1 / ((i : ℝ) + 1))

/-- The inner loop of `_fallback_embedding` over `enumerate(word[:10])`. -/
noncomputable def addWord (v : List ℝ) (w : String) : List ℝ :=
  (w.toList.take 10).enum.foldl (fun acc p => addChar acc p.1 p.2) v

/-- The accumulation phase of `_fallback_embedding` before normalization. -/
noncomputable def rawEmbed (text : String) : List ℝ :=
  (pySplit (toLowerStr text)).foldl addWord (List.replicate 256 0)

/-- Embeds `AIService._fallback_embedding`. -/
noncomputable def fallbackEmbedding (text : String) : List ℝ :=
  let e := rawEmbed text
  let norm := norml e
  if 0 < norm then e.map (fun x => x / norm) else e

/-- Modelled from the spec: the total weight the truncated word `w` adds at
bucket `j` — the sum of `1/(i+1)` over the 0-indexed positions `i` of the
first 10 characters whose character code is `j` mod 256. -/
noncomputable def wordContrib (w : String) (j : ℕ) : ℝ :=
  (((w.toList.take 10).enum.filter (fun p => p.2.toNat % 256 == j)).map
    (fun p => 1 / ((p.1 : ℝ) + 1))).sum

/-- The reference accumulator of spec §4.1: a 256-vector whose entry `j` is
the total weight added at bucket `j` across all whitespace-separated words of
the lower-cased input. -/
noncomputable def specRawEmbed (text : String) : List ℝ :=
  (List.range 256).map
    (fun j => ((pySplit (toLowerStr text)).map (fun w => wordContrib w j)).sum)

/-- The reference fallback embedding of spec §4.1: unit-normalize the
accumulator when its Euclidean norm is nonzero, return it unchanged
otherwise. -/
noncomputable def referenceEmbedding (text : String) : List ℝ :=
  let v := specRawEmbed text
  if norml v ≠ 0 then v.map (fun x => x / norml v) else v

/-- One indexed accumulation step `acc[p.1] += p.2`. -/
noncomputable def addAt (acc : List ℝ) (p : ℕ × ℝ) : List ℝ :=
  acc.set p.1 (acc.getD p.1 0 + p.2)

/-- The (bucket, weight) contributions of one word: position `i` among the
first 10 characters contributes `1/(i+1)` at bucket `ord(char) % 256`. -/
noncomputable def wordPairs (w : String) : List (ℕ × ℝ) :=
  (w.toList.take 10).enum.map (fun p => (p.2.toNat % 256, 1 / ((p.1 : ℝ) + 1)))

/-- All contributions of the lower-cased, whitespace-split input text. -/
noncomputable def textPairs (text : String) : List (ℕ × ℝ) :=
  (pySplit (toLowerStr text)).flatMap wordPairs

/-- Embeds `AIService.compute_similarity`. -/
noncomputable def computeSimilarity (embedding1 embedding2 : List ℝ) : ℝ :=
  if embedding1 = [] ∨ embedding2 = [] then 0
  else
    let min_len := min embedding1.length embedding2.length
    let vec1 := embedding1.take min_len
    let vec2 := embedding2.take min_len
    let norm1 := norml vec1
    let norm2 := norml vec2
    if norm1 = 0 ∨ norm2 = 0 then 0
    else dotl vec1 vec2 / (norm1 * norm2)

/-- Standard cosine similarity, as spec §4.2 words it. -/
noncomputable def cosineSim (a b : List ℝ) : ℝ :=
  dotl a b / (norml a * norml b)

/-- Embeds `AIService.get_embedding`; in local mode (or on a raising remote
call) this is the deterministic fallback embedding. -/
noncomputable def getEmbedding (available : Bool)
    (remote : Except PyError (List ℝ)) (text : String) : List ℝ :=
  if !available then fallbackEmbedding text
  else
    match remote with
    | .ok v => v
    | .error _ => fallbackEmbedding text

/-- A candidate task record for similarity ranking: a dict whose
`embedding` key may be absent/null. -/
structure EmbTask where
  id : ℕ
  embedding : Option (List ℝ)

/-- Whether a candidate passes Python's truthiness test
`if task.get("embedding"):` — a present, non-empty embedding. -/
def hasStoredEmbedding (t : EmbTask) : Bool :=
  match t.embedding with
  | some (_ :: _) => true
  | _ => false

/-- The stored embedding of an eligible candidate. -/
def embOf (t : EmbTask) : List ℝ := t.embedding.getD []

/-- The (task, score) pairs the ranking computes: one per candidate passing
the truthiness test, in the candidates' original order. -/
noncomputable def scoredOf (qe : List ℝ) (tasks : List EmbTask) :
    List (EmbTask × ℝ) :=
  tasks.filterMap (fun t =>
    match t.embedding with
    | some (x :: xs) => some (t, computeSimilarity qe (x :: xs))
    | _ => none)

/-- Embeds `AIService.find_similar_tasks`. -/
noncomputable def findSimilarTasks (available : Bool)
    (remote : Except PyError (List ℝ)) (task_title : String)
    (task_description : Option String) (all_tasks : List EmbTask)
    (limit : ℕ) : List (EmbTask × ℝ) :=
  let query_embedding :=
    getEmbedding available remote (task_title ++ " " ++ task_description.getD "")
  if query_embedding = [] then []
  else
    let similarities := all_tasks.filterMap (fun t =>
      match t.embedding with
      | some (x :: xs) => some (t, computeSimilarity query_embedding (x :: xs))
      | _ => none)
    (sortDescBy (fun p => p.2) similarities).take limit

/-- Embeds `TaskService.semantic_search`, with the database contents passed as
the list `dbTasks` (the SQL `WHERE embedding IS NOT NULL` is the `isSome`
filter). -/
noncomputable def semanticSearch (available : Bool)
    (remote : Except PyError (List ℝ)) (query : String)
    (dbTasks : List EmbTask) (limit : ℕ) : List (EmbTask × ℝ) :=
  let query_embedding := getEmbedding available remote query
  if query_embedding = [] then []
  else
    let tasks := dbTasks.filter (fun t => t.embedding.isSome)
    let task_scores := tasks.filterMap (fun t =>
      match t.embedding with
      | some (x :: xs) => some (t, computeSimilarity query_embedding (x :: xs))
      | _ => none)
    (sortDescBy (fun p => p.2) task_scores).take limit

/-- The top 3 tags by frequency as the spec words it: the distinct tags in
first-encountered order, stably sorted by descending frequency, truncated to
three. -/
def specTopTags (allTags : List String) : List String :=
  (sortDescBy (fun t => allTags.count t) (distinctFirst allTags)).take 3

/-- The categories whose keyword group matches the text, in declaration order
of the fixed 10-category table (spec §4.3). -/
def matchingCategories (title : String) (description : Option String) : List String :=
  (categoryKeywords.filter
    (fun p => p.2.any (fun kw => strIn kw (heurText title description)))).map
    (fun p => p.1)

/-- A concrete `json.loads` behavior returning an object whose priority field
is a string outside the enum. -/
def cexLoads : String → Except PyError Json :=
  fun _ => .ok (.obj [("priority", Json.str "bogus"), ("reasoning", Json.str "r")])

-- THEOREMS

theorem keywordHit_iff_any (ws : List String) (t : String) (d : Option String) :
    (ws.any (fun w => strIn w (heurText t d)) = true) ↔ keywordHit ws t d := by
  simp [List.any_eq_true, keywordHit]

theorem foldl_append_ite {α : Type} (p : α → Bool) (f : α → String) :
    ∀ (l : List α) (init : List String),
      l.foldl (fun acc x => if p x then acc ++ [f x] else acc) init
        = init ++ (l.filter p).map f := by
  intro l
  induction l with
  | nil => intro init; simp
  | cons a l ih =>
    intro init
    by_cases h : p a = true <;> simp [h, ih]

/-- C4, counterexample: the claim lists `important` among the urgency
keywords of the fallback priority classifier, but
`_fallback_suggest_priority` does not test for it — a title consisting of
that keyword is classified `medium`, not `high`. -/
theorem C4_counterexample :
    fallbackSuggestPriority "important" none = (TaskPriority.medium, "Default priority")
    ∧ strIn "important" (heurText "important" none) = true := by
  constructor <;> decide

/-- C4, amended: the fallback priority classifier matches case-insensitively
against `title ++ " " ++ description` and returns `high` iff an urgency
keyword (`urgent`, `asap`, `critical`, `blocker`, or a Chinese equivalent —
not `important`) occurs, else `low` iff a deferrable keyword (`someday`,
`maybe`, `nice to have`, or a Chinese equivalent — not `when possible`)
occurs, and `medium` otherwise. -/
theorem C4_priority_heuristic (title : String) (description : Option String) :
    ((fallbackSuggestPriority title description).1 = TaskPriority.high ↔
      keywordHit ["urgent", "asap", "critical", "blocker", "紧急", "立即"]
        title description)
    ∧ ((fallbackSuggestPriority title description).1 = TaskPriority.low ↔
      (¬ keywordHit ["urgent", "asap", "critical", "blocker", "紧急", "立即"]
          title description
        ∧ keywordHit ["someday", "maybe", "nice to have", "低优先"] title description))
    ∧ ((fallbackSuggestPriority title description).1 = TaskPriority.medium ↔
      (¬ keywordHit ["urgent", "asap", "critical", "blocker", "紧急", "立即"]
          title description
        ∧ ¬ keywordHit ["someday", "maybe", "nice to have", "低优先"]
          title description)) := by
  have hu := keywordHit_iff_any
    ["urgent", "asap", "critical", "blocker", "紧急", "立即"] title description
  have hd := keywordHit_iff_any
    ["someday", "maybe", "nice to have", "低优先"] title description
  unfold fallbackSuggestPriority
  by_cases h1 : (["urgent", "asap", "critical", "blocker", "紧急", "立即"].any
      (fun w => strIn w (heurText title description))) = true
  · simp only [h1, if_true, ← hu, ← hd]
    simp [h1]
  · by_cases h2 : (["someday", "maybe", "nice to have", "低优先"].any
        (fun w => strIn w (heurText title description))) = true
    · simp only [← hu, ← hd]
      simp [h1, h2]
    · simp only [← hu, ← hd]
      simp [h1, h2]

/-- C4, witness for the amended theorem at concrete inputs. -/
theorem C4_priority_heuristic_witness :
    (fallbackSuggestPriority "Urgent: fix the bug" none).1 = TaskPriority.high
    ∧ (fallbackSuggestPriority "Clean the garage someday" none).1 = TaskPriority.low
    ∧ (fallbackSuggestPriority "Write weekly report" none).1 = TaskPriority.medium := by
  refine ⟨(C4_priority_heuristic "Urgent: fix the bug" none).1.mpr ?_,
    (C4_priority_heuristic "Clean the garage someday" none).2.1.mpr ⟨?_, ?_⟩,
    (C4_priority_heuristic "Write weekly report" none).2.2.mpr ⟨?_, ?_⟩⟩
  · exact ⟨"urgent", by decide, by decide⟩
  · intro h
    rcases h with ⟨w, hw, hs⟩
    fin_cases hw <;> revert hs <;> decide
  · exact ⟨"someday", by decide, by decide⟩
  · intro h
    rcases h with ⟨w, hw, hs⟩
    fin_cases hw <;> revert hs <;> decide
  · intro h
    rcases h with ⟨w, hw, hs⟩
    fin_cases hw <;> revert hs <;> decide

/-- C9: the fallback categorizer tests the lower-cased
`title ++ " " ++ description` text against the fixed ordered 10-category
table (`work` … `shopping`); the first matching category is primary, the next
up to two matches are the subcategories, and no match yields `other`. -/
theorem C9_fallback_categorize (title : String) (description : Option String) :
    (categoryKeywords.map (fun p => p.1) =
      ["work", "personal", "health", "finance", "learning", "social", "home",
       "creative", "urgent", "shopping"])
    ∧ (matchingCategories title description = [] →
        fallbackCategorize title description = ("other", [], "未能匹配到具体分类"))
    ∧ (∀ c rest, matchingCategories title description = c :: rest →
        fallbackCategorize title description =
          (c, rest.take 2, "基于关键词匹配: " ++ c)) := by
  have hm : (categoryKeywords.foldl
      (fun acc p => if p.2.any (fun kw => strIn kw (heurText title description))
        then acc ++ [p.1] else acc) [])
      = matchingCategories title description := by
    rw [foldl_append_ite]
    simp [matchingCategories]
  refine ⟨by decide, ?_, ?_⟩
  · intro h
    simp only [fallbackCategorize]
    rw [hm, h]
  · intro c rest h
    simp only [fallbackCategorize]
    rw [hm, h]

/-- C9, witness: the amended statement applied to a concrete categorization. -/
theorem C9_fallback_categorize_witness :
    fallbackCategorize "work meeting today" (some "") =
      ("work", ["social"], "基于关键词匹配: work") := by
  have h := (C9_fallback_categorize "work meeting today" (some "")).2.2
  exact h "work" ["social"] (by decide)

/-- C6, counterexample: on the empty list, `generate_task_insights` returns a
dict containing only `total`, `insights` and `recommendations` — the
`by_status`/`by_priority`/`by_tag` keys are absent, not present as empty
mappings as the claim states. -/
theorem C6_counterexample :
    (generateTaskInsights []).by_status = none
    ∧ (generateTaskInsights []).by_status ≠ some []
    ∧ (generateTaskInsights []).by_priority ≠ some []
    ∧ (generateTaskInsights []).by_tag ≠ some [] := by
  refine ⟨rfl, ?_, ?_, ?_⟩ <;> intro h <;> exact Option.noConfusion h

/-- C6, amended: on the empty list the report is exactly
`{total: 0, insights: [], recommendations: []}`, with the three distribution
keys and `completion_rate` absent. -/
theorem C6_insights_empty :
    generateTaskInsights [] = ⟨0, none, none, none, none, [], []⟩ := rfl

/-- Validation bounds carried by a successful `asConfidence`. -/
theorem asConfidence_ok (v : Json) (q : ℚ) (h : asConfidence v = .ok q) :
    0 ≤ q ∧ q ≤ 1 := by
  cases v <;> simp [asConfidence] at h
  case num q' =>
    by_cases hb : 0 ≤ q' ∧ q' ≤ 1
    · simp [hb] at h
      exact h ▸ hb
    · simp [hb] at h

theorem bindError {α β : Type} (e : PyError) (f : α → Except PyError β) :
    ((Except.error e : Except PyError α) >>= f) = Except.error e := rfl

theorem bindOk {α β : Type} (a : α) (f : α → Except PyError β) :
    ((Except.ok a : Except PyError α) >>= f) = f a := rfl

/-- A successful `buildParsed` result satisfies the pydantic `confidence`
bounds. -/
theorem buildParsed_confidence (text : String) (j : Json) (r : ParsedTaskFromNL)
    (h : buildParsed text j = .ok r) : 0 ≤ r.confidence ∧ r.confidence ≤ 1 := by
  cases j <;> simp [buildParsed] at h
  case obj fields =>
    rcases h1 : asStr (jget fields "title" (.str (pySliceStr text 100))) with e | t <;>
      rw [h1] at h
    · rw [bindError] at h; exact Except.noConfusion h
    rw [bindOk] at h
    rcases h2 : asOptStr (jget fields "description" .null) with e | d <;>
      rw [h2] at h
    · rw [bindError] at h; exact Except.noConfusion h
    rw [bindOk] at h
    rcases h3 : TaskPriority.fromJson (jget fields "priority" (.str "medium")) with e | p <;>
      rw [h3] at h
    · rw [bindError] at h; exact Except.noConfusion h
    rw [bindOk] at h
    rcases h4 : asStrList (jget fields "tags" (.arr [])) with e | tg <;>
      rw [h4] at h
    · rw [bindError] at h; exact Except.noConfusion h
    rw [bindOk] at h
    rcases h5 : asOptStr (jget fields "due_date" .null) with e | dd <;>
      rw [h5] at h
    · rw [bindError] at h; exact Except.noConfusion h
    rw [bindOk] at h
    rcases h6 : asConfidence (jget fields "confidence" (.num (8/10))) with e | cf <;>
      rw [h6] at h
    · rw [bindError] at h; exact Except.noConfusion h
    rw [bindOk] at h
    have hb := asConfidence_ok _ _ h6
    cases h
    exact hb

/-- The four failure modes of the shared remote-then-extract skeleton all
return the fallback value. -/
theorem aiAttempt_fallback {α : Type} (fb : α) (remote : Except PyError String)
    (build : String → Except PyError α) :
    (aiAttempt fb false remote build = fb)
    ∧ (∀ e, aiAttempt fb true (.error e) build = fb)
    ∧ (∀ c, extractJson (pyStrip c) = none → aiAttempt fb true (.ok c) build = fb)
    ∧ (∀ c j e, extractJson (pyStrip c) = some j → build j = .error e →
        aiAttempt fb true (.ok c) build = fb) := by
  refine ⟨rfl, fun e => rfl, fun c h => ?_, fun c j e h1 h2 => ?_⟩
  · simp [aiAttempt, h]
  · simp [aiAttempt, h1, h2]

/-- Inversion of a successful `Except.bind`. -/
theorem bind_ok_inv {α β : Type} {x : Except PyError α} {f : α → Except PyError β}
    {b : β} (h : x.bind f = .ok b) : ∃ a, x = .ok a ∧ f a = .ok b := by
  cases x with
  | error e => exact Except.noConfusion h
  | ok a => exact ⟨a, rfl, h⟩

/-- Every run of the remote-then-extract skeleton either returns the fallback
or a successfully extracted value. -/
theorem aiAttempt_cases {α : Type} (fb : α) (available : Bool)
    (remote : Except PyError String) (build : String → Except PyError α) :
    aiAttempt fb available remote build = fb
    ∨ ∃ c j r, remote = .ok c ∧ extractJson (pyStrip c) = some j
        ∧ build j = .ok r ∧ aiAttempt fb available remote build = r := by
  cases available with
  | false => exact Or.inl rfl
  | true =>
    cases remote with
    | error e => exact Or.inl rfl
    | ok c =>
      rcases hE : extractJson (pyStrip c) with _ | j
      · exact Or.inl (by simp [aiAttempt, hE])
      · rcases hB : build j with e | r
        · exact Or.inl (by simp [aiAttempt, hE, hB])
        · exact Or.inr ⟨c, j, r, rfl, hE, hB, by simp [aiAttempt, hE, hB]⟩

theorem fallbackParse_confidence (text : String) :
    (fallbackParse text).confidence = 1/2 := by
  simp [fallbackParse]

/-- C1, amended: for every assistance operation with non-empty caller input,
a remote path that is unavailable, raises, returns no brace-delimited JSON
object, or returns JSON on which the operation's extraction/validation step
raises, never propagates an exception (the embedded operations are total,
with every raising sub-step caught in `Except`) and yields exactly the
deterministic fallback result; `parse` moreover always satisfies the
`confidence ∈ [0,1]` schema bound.  Exception forced by the counterexample:
in `suggest_priority` an out-of-enum priority *string* does not raise — it is
defaulted to `medium` and returned together with the remote reasoning, not
replaced by the fallback. -/
theorem C1_graceful_degradation :
    (∀ (jl : String → Except PyError Json) (remote : Except PyError String)
        (text : String), text ≠ "" →
      parseNaturalLanguageTask false jl remote text = fallbackParse text
      ∧ (∀ e, parseNaturalLanguageTask true jl (.error e) text = fallbackParse text)
      ∧ (∀ c, extractJson (pyStrip c) = none →
          parseNaturalLanguageTask true jl (.ok c) text = fallbackParse text)
      ∧ (∀ c j e, extractJson (pyStrip c) = some j → jl j = .error e →
          parseNaturalLanguageTask true jl (.ok c) text = fallbackParse text)
      ∧ (∀ c j v e, extractJson (pyStrip c) = some j → jl j = .ok v →
          buildParsed text v = .error e →
          parseNaturalLanguageTask true jl (.ok c) text = fallbackParse text)
      ∧ (∀ available remote2,
          0 ≤ (parseNaturalLanguageTask available jl remote2 text).confidence
          ∧ (parseNaturalLanguageTask available jl remote2 text).confidence ≤ 1))
    ∧ (∀ (jl : String → Except PyError Json) (title : String)
        (d : Option String), title ≠ "" →
      (∀ remote, suggestTags false jl remote title d =
        ((fallbackSuggestTags title d).1.map Json.str |> Json.arr,
         Json.str (fallbackSuggestTags title d).2))
      ∧ (∀ e, suggestTags true jl (.error e) title d =
        ((fallbackSuggestTags title d).1.map Json.str |> Json.arr,
         Json.str (fallbackSuggestTags title d).2))
      ∧ (∀ c, extractJson (pyStrip c) = none → suggestTags true jl (.ok c) title d =
        ((fallbackSuggestTags title d).1.map Json.str |> Json.arr,
         Json.str (fallbackSuggestTags title d).2))
      ∧ (∀ c j e, extractJson (pyStrip c) = some j →
          (jl j).bind buildTags = .error e →
          suggestTags true jl (.ok c) title d =
            ((fallbackSuggestTags title d).1.map Json.str |> Json.arr,
             Json.str (fallbackSuggestTags title d).2)))
    ∧ (∀ (jl : String → Except PyError Json) (title : String)
        (d : Option String), title ≠ "" →
      (∀ remote, suggestPriority false jl remote title d =
        ((fallbackSuggestPriority title d).1,
         Json.str (fallbackSuggestPriority title d).2))
      ∧ (∀ e, suggestPriority true jl (.error e) title d =
        ((fallbackSuggestPriority title d).1,
         Json.str (fallbackSuggestPriority title d).2))
      ∧ (∀ c, extractJson (pyStrip c) = none →
          suggestPriority true jl (.ok c) title d =
            ((fallbackSuggestPriority title d).1,
             Json.str (fallbackSuggestPriority title d).2))
      ∧ (∀ c j e, extractJson (pyStrip c) = some j →
          (jl j).bind buildPriority = .error e →
          suggestPriority true jl (.ok c) title d =
            ((fallbackSuggestPriority title d).1,
             Json.str (fallbackSuggestPriority title d).2))
      ∧ (∀ c j fields s, extractJson (pyStrip c) = some j →
          jl j = .ok (.obj fields) →
          jget fields "priority" (.str "medium") = .str s →
          toLowerStr s ≠ "low" → toLowerStr s ≠ "medium" → toLowerStr s ≠ "high" →
          suggestPriority true jl (.ok c) title d =
            (TaskPriority.medium, jget fields "reasoning" (.str ""))))
    ∧ (∀ (jl : String → Except PyError Json) (title : String)
        (d : Option String), title ≠ "" →
      (∀ remote, breakdownTask false jl remote title d =
        ((fallbackBreakdown title).1, Json.str (fallbackBreakdown title).2))
      ∧ (∀ e, breakdownTask true jl (.error e) title d =
        ((fallbackBreakdown title).1, Json.str (fallbackBreakdown title).2))
      ∧ (∀ c, extractJson (pyStrip c) = none → breakdownTask true jl (.ok c) title d =
        ((fallbackBreakdown title).1, Json.str (fallbackBreakdown title).2))
      ∧ (∀ c j e, extractJson (pyStrip c) = some j →
          (jl j).bind buildBreakdown = .error e →
          breakdownTask true jl (.ok c) title d =
            ((fallbackBreakdown title).1, Json.str (fallbackBreakdown title).2)))
    ∧ (∀ (jl : String → Except PyError Json) (title : String)
        (d : Option String), title ≠ "" →
      (∀ remote, categorizeTask false jl remote title d =
        (Json.str (fallbackCategorize title d).1,
         Json.arr ((fallbackCategorize title d).2.1.map Json.str),
         Json.str (fallbackCategorize title d).2.2))
      ∧ (∀ e, categorizeTask true jl (.error e) title d =
        (Json.str (fallbackCategorize title d).1,
         Json.arr ((fallbackCategorize title d).2.1.map Json.str),
         Json.str (fallbackCategorize title d).2.2))
      ∧ (∀ c, extractJson (pyStrip c) = none → categorizeTask true jl (.ok c) title d =
        (Json.str (fallbackCategorize title d).1,
         Json.arr ((fallbackCategorize title d).2.1.map Json.str),
         Json.str (fallbackCategorize title d).2.2))
      ∧ (∀ c j e, extractJson (pyStrip c) = some j →
          (jl j).bind buildCategorize = .error e →
          categorizeTask true jl (.ok c) title d =
            (Json.str (fallbackCategorize title d).1,
             Json.arr ((fallbackCategorize title d).2.1.map Json.str),
             Json.str (fallbackCategorize title d).2.2)))
    ∧ (∀ (tasks : List SummTask), tasks ≠ [] →
      (∀ remote, summarizeTasks false remote tasks = fallbackSummarize tasks)
      ∧ (∀ e, summarizeTasks true (.error e) tasks = fallbackSummarize tasks)) := by
  refine ⟨?_, ?_, ?_, ?_, ?_, ?_⟩
  · intro jl remote text _
    refine ⟨rfl, fun e => rfl, ?_, ?_, ?_, ?_⟩
    · intro c h
      exact (aiAttempt_fallback _ (.error .runtimeError) _).2.2.1 c h
    · intro c j e h1 h2
      refine (aiAttempt_fallback _ (.error .runtimeError) _).2.2.2 c j e h1 ?_
      rw [h2]
      rfl
    · intro c j v e h1 h2 h3
      refine (aiAttempt_fallback _ (.error .runtimeError) _).2.2.2 c j e h1 ?_
      rw [h2]
      simpa using h3
    · intro available remote2
      rcases aiAttempt_cases (fallbackParse text) available remote2
          (fun jstr => (jl jstr).bind (buildParsed text)) with h | ⟨c, j, r, _, _, hB, h⟩
      · rw [show parseNaturalLanguageTask available jl remote2 text
            = aiAttempt (fallbackParse text) available remote2
              (fun jstr => (jl jstr).bind (buildParsed text)) from rfl, h,
          fallbackParse_confidence]
        norm_num
      · rw [show parseNaturalLanguageTask available jl remote2 text
            = aiAttempt (fallbackParse text) available remote2
              (fun jstr => (jl jstr).bind (buildParsed text)) from rfl, h]
        rcases bind_ok_inv hB with ⟨v, _, hv⟩
        exact buildParsed_confidence text v r hv
  · intro jl title d _
    refine ⟨fun remote => rfl, fun e => rfl, ?_, ?_⟩
    · intro c h
      exact (aiAttempt_fallback _ (.error .runtimeError) _).2.2.1 c h
    · intro c j e h1 h2
      exact (aiAttempt_fallback _ (.error .runtimeError) _).2.2.2 c j e h1 h2
  · intro jl title d _
    refine ⟨fun remote => rfl, fun e => rfl, ?_, ?_, ?_⟩
    · intro c h
      exact (aiAttempt_fallback _ (.error .runtimeError) _).2.2.1 c h
    · intro c j e h1 h2
      exact (aiAttempt_fallback _ (.error .runtimeError) _).2.2.2 c j e h1 h2
    · intro c j fields s h1 h2 h3 h4 h5 h6
      have hbuild : ((jl j).bind buildPriority) =
          .ok (TaskPriority.medium, jget fields "reasoning" (.str "")) := by
        rw [h2]
        show buildPriority (.obj fields) = _
        simp only [buildPriority, h3]
        rw [bindOk]
        simp [h4, h5, h6]
      show aiAttempt _ true (.ok c) _ = _
      simp [aiAttempt, h1, hbuild]
  · intro jl title d _
    refine ⟨fun remote => rfl, fun e => rfl, ?_, ?_⟩
    · intro c h
      exact (aiAttempt_fallback _ (.error .runtimeError) _).2.2.1 c h
    · intro c j e h1 h2
      exact (aiAttempt_fallback _ (.error .runtimeError) _).2.2.2 c j e h1 h2
  · intro jl title d _
    refine ⟨fun remote => rfl, fun e => rfl, ?_, ?_⟩
    · intro c h
      exact (aiAttempt_fallback _ (.error .runtimeError) _).2.2.1 c h
    · intro c j e h1 h2
      exact (aiAttempt_fallback _ (.error .runtimeError) _).2.2.2 c j e h1 h2
  · intro tasks h
    exact ⟨fun remote => rfl, fun e => by simp [summarizeTasks, h]⟩

/-- C1, counterexample: with the remote path available and returning the JSON
object with priority string `"bogus"` (a field value failing enum
validation), `suggest_priority` does not fall back — it returns `medium`
together with the remote reasoning, while the deterministic fallback on the
same input returns `high` with its own reasoning. -/
theorem C1_counterexample :
    suggestPriority true cexLoads (.ok "\x7b\x7d") "urgent" none
      = (TaskPriority.medium, Json.str "r")
    ∧ fallbackSuggestPriority "urgent" none
      = (TaskPriority.high, "Contains urgency keywords")
    ∧ TaskPriority.medium ≠ TaskPriority.high := by
  refine ⟨?_, by decide, by decide⟩
  have h1 : extractJson (pyStrip "\x7b\x7d") = some "\x7b\x7d" := by decide
  have h2 : (cexLoads "\x7b\x7d").bind buildPriority
      = .ok (TaskPriority.medium, Json.str "r") := by
    show buildPriority (.obj [("priority", Json.str "bogus"),
      ("reasoning", Json.str "r")]) = _
    rfl
  unfold suggestPriority
  simp [aiAttempt, h1, h2]

/-- C1, witness: the amended theorem applied at concrete inputs for each of
the six operations, discharging each hypothesis. -/
theorem C1_witness :
    parseNaturalLanguageTask false cexLoads (.error .runtimeError) "buy milk"
      = fallbackParse "buy milk"
    ∧ suggestTags true cexLoads (.error .runtimeError) "write api doc" none
      = ((fallbackSuggestTags "write api doc" none).1.map Json.str |> Json.arr,
         Json.str (fallbackSuggestTags "write api doc" none).2)
    ∧ suggestPriority true cexLoads (.ok "no json here") "urgent fix" none
      = ((fallbackSuggestPriority "urgent fix" none).1,
         Json.str (fallbackSuggestPriority "urgent fix" none).2)
    ∧ breakdownTask true cexLoads (.error .runtimeError) "Launch product" none
      = ((fallbackBreakdown "Launch product").1,
         Json.str (fallbackBreakdown "Launch product").2)
    ∧ categorizeTask false cexLoads (.ok "\x7b\x7d") "gym session" none
      = (Json.str (fallbackCategorize "gym session" none).1,
         Json.arr ((fallbackCategorize "gym session" none).2.1.map Json.str),
         Json.str (fallbackCategorize "gym session" none).2.2)
    ∧ summarizeTasks true (.error .runtimeError) [⟨"t", "pending", "high"⟩]
      = fallbackSummarize [⟨"t", "pending", "high"⟩] := by
  refine ⟨?_, ?_, ?_, ?_, ?_, ?_⟩
  · exact (C1_graceful_degradation.1 cexLoads (.error .runtimeError) "buy milk"
      (by decide)).1
  · exact ((C1_graceful_degradation.2.1 cexLoads "write api doc" none
      (by decide)).2.1) .runtimeError
  · exact ((C1_graceful_degradation.2.2.1 cexLoads "urgent fix" none
      (by decide)).2.2.1) "no json here" (by decide)
  · exact ((C1_graceful_degradation.2.2.2.1 cexLoads "Launch product" none
      (by decide)).2.1) .runtimeError
  · exact (C1_graceful_degradation.2.2.2.2.1 cexLoads "gym session" none
      (by decide)).1 (.ok "\x7b\x7d")
  · exact ((C1_graceful_degradation.2.2.2.2.2 [⟨"t", "pending", "high"⟩]
      (by simp)).2) .runtimeError

/-- C5: the parse endpoint rejects empty input text with a validation error —
a failure class distinct from remote/runtime failures, which instead degrade
to the fallback draft inside a successful response. -/
theorem C5_validation_fast_fail :
    (∀ (available : Bool) (jl : String → Except PyError Json)
        (remote : Except PyError String),
      parseEndpoint available jl remote "" = .error .minLength)
    ∧ (∀ (available : Bool) (jl : String → Except PyError Json)
        (remote : Except PyError String) (text : String), text ≠ "" →
      parseEndpoint available jl remote text =
        .ok (parseNaturalLanguageTask available jl remote text))
    ∧ (∀ (jl : String → Except PyError Json) (e : PyError) (text : String),
        text ≠ "" →
      parseEndpoint true jl (.error e) text = .ok (fallbackParse text)) := by
  refine ⟨fun available jl remote => rfl, ?_, ?_⟩
  · intro available jl remote text h
    have hlen : 1 ≤ text.length := by
      cases text with
      | mk data =>
        cases data with
        | nil => exact absurd rfl h
        | cons c cs => simp [String.length]
    simp [parseEndpoint, NaturalLanguageTaskInput.validate, hlen, Except.map]
  · intro jl e text h
    have hlen : 1 ≤ text.length := by
      cases text with
      | mk data =>
        cases data with
        | nil => exact absurd rfl h
        | cons c cs => simp [String.length]
    simp [parseEndpoint, NaturalLanguageTaskInput.validate, hlen, Except.map]
    rfl

/-- C5, witness: empty text is rejected while a remote failure on non-empty
text still yields a parsed (fallback) draft. -/
theorem C5_witness :
    parseEndpoint true cexLoads (.error .runtimeError) "" = .error .minLength
    ∧ parseEndpoint true cexLoads (.error .runtimeError) "buy groceries"
      = .ok (fallbackParse "buy groceries") := by
  exact ⟨C5_validation_fast_fail.1 true cexLoads (.error .runtimeError),
    C5_validation_fast_fail.2.2 cexLoads .runtimeError "buy groceries" (by decide)⟩

theorem foldl_flatMap_eq {α β γ : Type} (f : γ → α → γ) (g : β → List α) :
    ∀ (l : List β) (init : γ),
      (l.flatMap g).foldl f init = l.foldl (fun acc x => (g x).foldl f acc) init := by
  intro l
  induction l with
  | nil => intro init; rfl
  | cons a l ih =>
    intro init
    simp only [List.flatMap_cons, List.foldl_append, List.foldl_cons, ih]

theorem distinctFirst_append_singleton (l : List String) (x : String) :
    distinctFirst (l ++ [x]) =
      if x ∈ distinctFirst l then distinctFirst l else distinctFirst l ++ [x] := by
  unfold distinctFirst
  rw [List.foldl_append]
  rfl

theorem mem_distinctFirst (x : String) (l : List String) :
    x ∈ distinctFirst l ↔ x ∈ l := by
  induction l using List.reverseRecOn with
  | nil => rfl
  | append_singleton l a ih =>
    rw [distinctFirst_append_singleton]
    by_cases ha : a ∈ distinctFirst l
    · rw [if_pos ha]
      simp only [List.mem_append, List.mem_singleton, ih]
      constructor
      · exact Or.inl
      · rintro (hx | rfl)
        · exact hx
        · exact ih.mp ha
    · rw [if_neg ha]
      simp [ih]

theorem tally_append_singleton (l : List String) (x : String) :
    tally (l ++ [x]) = bump (tally l) x := by
  unfold tally
  rw [List.foldl_append]
  rfl

theorem tally_eq (l : List String) :
    tally l = (distinctFirst l).map (fun k => (k, l.count k)) := by
  induction l using List.reverseRecOn with
  | nil => rfl
  | append_singleton l x ih =>
    rw [tally_append_singleton, distinctFirst_append_singleton, ih]
    by_cases hx : x ∈ distinctFirst l
    · rw [if_pos hx]
      have hfind : (((distinctFirst l).map (fun k => (k, l.count k))).find?
          (fun p => p.1 == x)).isSome = true := by
        rw [List.find?_isSome]
        exact ⟨(x, l.count x), List.mem_map_of_mem _ hx, by simp⟩
      rw [bump, if_pos hfind, List.map_map]
      apply List.map_congr_left
      intro k hk
      by_cases hkx : k = x
      · subst hkx
        simp [List.count_append]
      · have : (k == x) = false := by simp [hkx]
        simp [this, Function.comp, List.count_append, List.count_singleton',
          Ne.symm hkx]
    · rw [if_neg hx]
      have hfind : (((distinctFirst l).map (fun k => (k, l.count k))).find?
          (fun p => p.1 == x)) = none := by
        rw [List.find?_eq_none]
        rintro ⟨k, c⟩ hk
        simp only [List.mem_map] at hk
        rcases hk with ⟨k', hk', hke⟩
        cases hke
        simp only [beq_iff_eq]
        intro hkk
        exact hx (hkk ▸ hk')
      rw [bump, show (((distinctFirst l).map (fun k => (k, l.count k))).find?
          (fun p => p.1 == x)).isSome = false by rw [hfind]; rfl]
      simp only [Bool.false_eq_true, if_false, List.map_append]
      congr 1
      · apply List.map_congr_left
        intro k hk
        have hkx : k ≠ x := by
          intro hkk
          exact hx (hkk ▸ hk)
        simp [List.count_append, List.count_singleton', Ne.symm hkx]
      · have hxl : x ∉ l := fun hc => hx ((mem_distinctFirst x l).mpr hc)
        simp [List.count_append, List.count_eq_zero.mpr hxl]

theorem assocGetD_map_keys (keys : List String) (c : String → ℕ) (k : String) :
    assocGetD (keys.map (fun q => (q, c q))) k 0 = if k ∈ keys then c k else 0 := by
  induction keys with
  | nil => rfl
  | cons a keys ih =>
    by_cases hak : a = k
    · subst hak
      simp [assocGetD, List.find?_cons_of_pos]
    · have hbeq : (a == k) = false := by simp [hak]
      simp only [List.map_cons]
      rw [assocGetD, List.find?_cons_of_neg _ (by simp [hbeq])]
      rw [show (match ((keys.map (fun q => (q, c q))).find? (fun p => p.1 == k)) with
          | some p => p.2 | none => 0) = assocGetD (keys.map (fun q => (q, c q))) k 0
        from rfl, ih]
      simp [show ¬ k = a from fun hc => hak hc.symm]

theorem assocGetD_tally (l : List String) (k : String) :
    assocGetD (tally l) k 0 = l.count k := by
  rw [tally_eq, assocGetD_map_keys]
  by_cases h : k ∈ distinctFirst l
  · rw [if_pos h]
  · rw [if_neg h]
    have : k ∉ l := fun hc => h ((mem_distinctFirst k l).mpr hc)
    exact (List.count_eq_zero.mpr this).symm

theorem sortDescBy_append_singleton {α β : Type} [LinearOrder β] (key : α → β)
    (l : List α) (x : α) :
    sortDescBy key (l ++ [x]) = insertDescBy key x (sortDescBy key l) := by
  unfold sortDescBy
  rw [List.foldl_append]
  rfl

theorem mem_insertDescBy {α β : Type} [LinearOrder β] (key : α → β) (x b : α)
    (l : List α) : b ∈ insertDescBy key x l ↔ b = x ∨ b ∈ l := by
  induction l with
  | nil => simp [insertDescBy]
  | cons y ys ih =>
    simp only [insertDescBy]
    by_cases h : key y < key x
    · rw [if_pos h]
      simp [List.mem_cons]
    · rw [if_neg h]
      simp only [List.mem_cons, ih]
      tauto

theorem insertDescBy_map {α γ β : Type} [LinearOrder β] (key : γ → β) (f : α → γ)
    (x : α) (l : List α) :
    insertDescBy key (f x) (l.map f) = (insertDescBy (fun a => key (f a)) x l).map f := by
  induction l with
  | nil => rfl
  | cons y ys ih =>
    simp only [List.map_cons, insertDescBy]
    by_cases h : key (f y) < key (f x)
    · rw [if_pos h, if_pos h]
      rfl
    · rw [if_neg h, if_neg h, List.map_cons, ih]

theorem sortDescBy_map {α γ β : Type} [LinearOrder β] (key : γ → β) (f : α → γ)
    (l : List α) :
    sortDescBy key (l.map f) = (sortDescBy (fun a => key (f a)) l).map f := by
  induction l using List.reverseRecOn with
  | nil => rfl
  | append_singleton l x ih =>
    rw [List.map_append, List.map_singleton, sortDescBy_append_singleton,
      sortDescBy_append_singleton, ih, insertDescBy_map]

theorem insertDescBy_pairwise {α β : Type} [LinearOrder β] (key : α → β) (x : α)
    (l : List α) (h : l.Pairwise (fun a b => key b ≤ key a)) :
    (insertDescBy key x l).Pairwise (fun a b => key b ≤ key a) := by
  induction l with
  | nil => simp [insertDescBy]
  | cons y ys ih =>
    rcases List.pairwise_cons.mp h with ⟨hy, hys⟩
    simp only [insertDescBy]
    by_cases hlt : key y < key x
    · rw [if_pos hlt]
      refine List.pairwise_cons.mpr ⟨?_, h⟩
      intro b hb
      rcases List.mem_cons.mp hb with rfl | hb'
      · exact hlt.le
      · exact (hy b hb').trans hlt.le
    · rw [if_neg hlt]
      refine List.pairwise_cons.mpr ⟨?_, ih hys⟩
      intro b hb
      rcases (mem_insertDescBy key x b ys).mp hb with rfl | hb'
      · exact le_of_not_lt hlt
      · exact hy b hb'

theorem sortDescBy_pairwise {α β : Type} [LinearOrder β] (key : α → β)
    (l : List α) :
    (sortDescBy key l).Pairwise (fun a b => key b ≤ key a) := by
  induction l using List.reverseRecOn with
  | nil => exact List.Pairwise.nil
  | append_singleton l x ih =>
    rw [sortDescBy_append_singleton]
    exact insertDescBy_pairwise key x _ ih

theorem insertDescBy_filter_pos {α β : Type} [LinearOrder β] (key : α → β)
    (s : β) (x : α) (l : List α) (hx : key x = s)
    (hsort : l.Pairwise (fun a b => key b ≤ key a)) :
    (insertDescBy key x l).filter (fun a => decide (key a = s))
      = l.filter (fun a => decide (key a = s)) ++ [x] := by
  induction l with
  | nil => simp [insertDescBy, hx]
  | cons y ys ih =>
    rcases List.pairwise_cons.mp hsort with ⟨hy, hys⟩
    simp only [insertDescBy]
    by_cases hlt : key y < key x
    · rw [if_pos hlt]
      have hempty : (y :: ys).filter (fun a => decide (key a = s)) = [] := by
        rw [List.filter_eq_nil_iff]
        intro b hb
        have hble : key b ≤ key y := by
          rcases List.mem_cons.mp hb with rfl | hb'
          · exact le_refl _
          · exact hy b hb'
        have : key b < s := hx ▸ lt_of_le_of_lt hble hlt
        simp [ne_of_lt this]
      rw [show ((x :: y :: ys).filter (fun a => decide (key a = s)))
          = x :: ((y :: ys).filter (fun a => decide (key a = s)))
        from by simp [List.filter_cons, hx], hempty]
      rfl
    · rw [if_neg hlt]
      by_cases hys' : key y = s
      · simp only [List.filter_cons, hys', decide_eq_true_eq, if_true]
        rw [ih hys]
        rfl
      · simp only [List.filter_cons, hys']
        simp only [decide_eq_true_eq, hys', if_false]
        exact ih hys

theorem insertDescBy_filter_neg {α β : Type} [LinearOrder β] (key : α → β)
    (s : β) (x : α) (l : List α) (hx : key x ≠ s) :
    (insertDescBy key x l).filter (fun a => decide (key a = s))
      = l.filter (fun a => decide (key a = s)) := by
  induction l with
  | nil => simp [insertDescBy, hx]
  | cons y ys ih =>
    simp only [insertDescBy]
    by_cases hlt : key y < key x
    · rw [if_pos hlt]
      simp [List.filter_cons, hx]
    · rw [if_neg hlt]
      simp [List.filter_cons, ih]

theorem sortDescBy_filter {α β : Type} [LinearOrder β] (key : α → β)
    (l : List α) (s : β) :
    (sortDescBy key l).filter (fun a => decide (key a = s))
      = l.filter (fun a => decide (key a = s)) := by
  induction l using List.reverseRecOn with
  | nil => rfl
  | append_singleton l x ih =>
    rw [sortDescBy_append_singleton]
    by_cases hx : key x = s
    · rw [insertDescBy_filter_pos key s x _ hx (sortDescBy_pairwise key l), ih,
        List.filter_append]
      simp [List.filter_cons, hx]
    · rw [insertDescBy_filter_neg key s x _ hx, ih, List.filter_append]
      simp [List.filter_cons, hx]

theorem foldl_triple (tasks : List PyTask)
    (s0 p0 t0 : List (String × ℕ)) :
    tasks.foldl
      (fun (acc : List (String × ℕ) × List (String × ℕ) × List (String × ℕ)) t =>
        (bump acc.1 (statusOf t), bump acc.2.1 (priorityOf t),
         (tagsOf t).foldl bump acc.2.2)) (s0, p0, t0)
    = (tasks.foldl (fun m t => bump m (statusOf t)) s0,
       tasks.foldl (fun m t => bump m (priorityOf t)) p0,
       tasks.foldl (fun m t => (tagsOf t).foldl bump m) t0) := by
  induction tasks generalizing s0 p0 t0 with
  | nil => rfl
  | cons a ts ih => simp only [List.foldl_cons, ih]

theorem tally_map_eq (f : PyTask → String) (tasks : List PyTask) :
    tasks.foldl (fun m t => bump m (f t)) [] = tally (tasks.map f) := by
  rw [tally, List.foldl_map]

theorem tally_flatMap_eq (g : PyTask → List String) (tasks : List PyTask) :
    tasks.foldl (fun m t => (g t).foldl bump m) [] = tally (tasks.flatMap g) := by
  rw [tally, foldl_flatMap_eq]

theorem count_map_eq (f : PyTask → String) (a : String) (tasks : List PyTask) :
    (tasks.map f).count a = tasks.countP (fun t => f t == a) := by
  rw [List.count_eq_countP, List.countP_map]
  rfl

theorem tally_eq_nil_iff (L : List String) : tally L = [] ↔ L = [] := by
  rw [tally_eq]
  cases L with
  | nil => simp [distinctFirst]
  | cons a l =>
    simp only [List.map_eq_nil_iff]
    constructor
    · intro hd
      have : a ∈ distinctFirst (a :: l) :=
        (mem_distinctFirst a (a :: l)).mpr (List.mem_cons_self a l)
      rw [hd] at this
      exact absurd this (List.not_mem_nil a)
    · intro hc
      exact absurd hc (List.cons_ne_nil a l)

theorem topTags_eq (L : List String) :
    ((sortDescBy (fun p : String × ℕ => p.2) (tally L)).take 3).map (fun p => p.1)
      = specTopTags L := by
  rw [tally_eq, sortDescBy_map (fun p : String × ℕ => p.2) (fun k => (k, L.count k)),
    ← List.map_take, List.map_map]
  simp only [specTopTags]
  rw [show ((fun p : String × ℕ => p.1) ∘ fun k => (k, L.count k)) = id from rfl,
    List.map_id]

/-- C7: on a non-empty task list the insights report has
`completion_rate = 100 * completed / total`; the pending-backlog insight and
recommendation appear exactly when `pending > total/2`; the high-priority
insight (with the exact count) and recommendation exactly when that count
exceeds 3; a one-decimal completion-rate insight always appears; and when any
tags exist a final insight names the top 3 tags by frequency descending, ties
broken by first-encountered order. -/
theorem C7_insights_nonempty (tasks : List PyTask) (h : tasks ≠ []) :
    (generateTaskInsights tasks).completion_rate
      = some (100 * (tasks.countP (fun t => statusOf t == "completed") : ℚ)
          / (tasks.length : ℚ))
    ∧ (generateTaskInsights tasks).insights =
        (if ((tasks.countP (fun t => statusOf t == "pending") : ℚ)
            > (tasks.length : ℚ) * (1/2)) then ["超过一半的任务仍在待处理状态"] else []) ++
        (if tasks.countP (fun t => priorityOf t == "high") > 3 then
          ["您有 " ++ toString (tasks.countP (fun t => priorityOf t == "high"))
            ++ " 个高优先级任务"] else []) ++
        ["任务完成率: " ++ fmt1 (100 * (tasks.countP (fun t => statusOf t == "completed") : ℚ)
            / (tasks.length : ℚ)) ++ "%"] ++
        (if tasks.flatMap tagsOf ≠ [] then
          ["最常用的标签: " ++ String.intercalate ", " (specTopTags (tasks.flatMap tagsOf))]
        else [])
    ∧ (generateTaskInsights tasks).recommendations =
        (if ((tasks.countP (fun t => statusOf t == "pending") : ℚ)
            > (tasks.length : ℚ) * (1/2)) then ["建议优先处理积压的任务"] else []) ++
        (if tasks.countP (fun t => priorityOf t == "high") > 3 then
          ["考虑先完成高优先级任务"] else []) := by
  have hne : (tasks = []) = False := eq_false h
  have htotal : (0 : ℚ) < (tasks.length : ℚ) := by
    have := List.length_pos.mpr h
    exact_mod_cast this
  have hrate : ((tasks.countP (fun t => statusOf t == "completed")) : ℚ)
        / (tasks.length : ℚ) * 100
      = 100 * ((tasks.countP (fun t => statusOf t == "completed")) : ℚ)
        / (tasks.length : ℚ) := by
    ring
  simp only [generateTaskInsights, hne, if_false, foldl_triple, tally_map_eq,
    tally_flatMap_eq, assocGetD_tally, gt_iff_lt, if_pos htotal, hrate,
    topTags_eq, ne_eq, tally_eq_nil_iff, count_map_eq]
  exact ⟨trivial, trivial, trivial⟩

/-- C7, witness: the insights of a concrete two-task list (one completed
high-priority task tagged `a, b`, one pending task tagged `a`). -/
theorem C7_witness :
    (generateTaskInsights
      [⟨some "completed", some "high", some ["a", "b"]⟩,
       ⟨some "pending", none, some ["a"]⟩]).completion_rate = some 50
    ∧ (generateTaskInsights
      [⟨some "completed", some "high", some ["a", "b"]⟩,
       ⟨some "pending", none, some ["a"]⟩]).insights
      = ["任务完成率: " ++ fmt1 50 ++ "%",
         "最常用的标签: " ++ String.intercalate ", " (specTopTags ["a", "b", "a"])] := by
  have H := C7_insights_nonempty
    [⟨some "completed", some "high", some ["a", "b"]⟩,
     ⟨some "pending", none, some ["a"]⟩] (by decide)
  have hcc : List.countP (fun t => statusOf t == "completed")
      [⟨some "completed", some "high", some ["a", "b"]⟩,
       ⟨some "pending", none, some ["a"]⟩] = 1 := by decide
  have hcp : List.countP (fun t => statusOf t == "pending")
      [⟨some "completed", some "high", some ["a", "b"]⟩,
       ⟨some "pending", none, some ["a"]⟩] = 1 := by decide
  have hch : List.countP (fun t => priorityOf t == "high")
      [⟨some "completed", some "high", some ["a", "b"]⟩,
       ⟨some "pending", none, some ["a"]⟩] = 1 := by decide
  have hfm : List.flatMap
      [(⟨some "completed", some "high", some ["a", "b"]⟩ : PyTask),
       ⟨some "pending", none, some ["a"]⟩] tagsOf = ["a", "b", "a"] := by decide
  have hlen : List.length
      [(⟨some "completed", some "high", some ["a", "b"]⟩ : PyTask),
       ⟨some "pending", none, some ["a"]⟩] = 2 := by decide
  constructor
  · rw [H.1, hcc, hlen]
    norm_num
  · rw [H.2.1, hcc, hcp, hch, hfm, hlen]
    norm_num
    decide

theorem foldl_addAt_length (ps : List (ℕ × ℝ)) :
    ∀ (v : List ℝ), (ps.foldl addAt v).length = v.length := by
  induction ps with
  | nil => intro v; rfl
  | cons p ps ih =>
    intro v
    rw [List.foldl_cons, ih, addAt, List.length_set]

theorem getD_addAt (v : List ℝ) (p : ℕ × ℝ) (j : ℕ) (hp : p.1 < v.length) :
    (addAt v p).getD j 0 = if p.1 = j then v.getD j 0 + p.2 else v.getD j 0 := by
  rw [addAt, List.getD_eq_getElem?_getD, List.getElem?_set]
  by_cases h : p.1 = j
  · subst h
    rw [if_pos rfl, if_pos rfl, if_pos hp]
    simp [List.getD_eq_getElem?_getD]
  · rw [if_neg h, if_neg h, List.getD_eq_getElem?_getD]

theorem foldl_addAt_getD (ps : List (ℕ × ℝ)) :
    ∀ (v : List ℝ), (∀ p ∈ ps, p.1 < v.length) → ∀ j,
      (ps.foldl addAt v).getD j 0
        = v.getD j 0 + ((ps.filter (fun p => p.1 == j)).map (fun p => p.2)).sum := by
  induction ps with
  | nil => intro v _ j; simp
  | cons p ps ih =>
    intro v hlt j
    have hp : p.1 < v.length := hlt p (List.mem_cons_self p ps)
    have hps : ∀ q ∈ ps, q.1 < (addAt v p).length := by
      intro q hq
      rw [addAt, List.length_set]
      exact hlt q (List.mem_cons_of_mem p hq)
    rw [List.foldl_cons, ih (addAt v p) hps j, getD_addAt v p j hp,
      List.filter_cons]
    by_cases h : p.1 = j
    · rw [if_pos h, if_pos (by simp [h])]
      simp [add_assoc]
    · rw [if_neg h, if_neg (by simp [h])]

theorem addWord_eq_pairs (v : List ℝ) (w : String) :
    addWord v w = (wordPairs w).foldl addAt v := by
  simp only [addWord, wordPairs, List.foldl_map]
  rfl

theorem rawEmbed_eq_pairs (text : String) :
    rawEmbed text = (textPairs text).foldl addAt (List.replicate 256 0) := by
  have haw : addWord = fun v w => (wordPairs w).foldl addAt v :=
    funext (fun v => funext (fun w => addWord_eq_pairs v w))
  rw [rawEmbed, haw, textPairs, foldl_flatMap_eq]

theorem textPairs_lt (text : String) : ∀ p ∈ textPairs text, p.1 < 256 := by
  intro p hp
  simp only [textPairs, List.mem_flatMap, wordPairs, List.mem_map] at hp
  rcases hp with ⟨w, _, q, _, hq⟩
  rw [← hq]
  exact Nat.mod_lt _ (by norm_num)

theorem rawEmbed_length (text : String) : (rawEmbed text).length = 256 := by
  rw [rawEmbed_eq_pairs, foldl_addAt_length, List.length_replicate]

theorem getD_replicate_zero (j : ℕ) : (List.replicate 256 (0 : ℝ)).getD j 0 = 0 := by
  rw [List.getD_eq_getElem?_getD]
  rcases h : (List.replicate 256 (0 : ℝ))[j]? with _ | x
  · rfl
  · have := List.getElem?_mem h
    rw [List.eq_of_mem_replicate this]
    rfl

theorem sum_flatMap_filter {α : Type} (g : α → List (ℕ × ℝ)) (q : ℕ × ℝ → Bool)
    (h : ℕ × ℝ → ℝ) (L : List α) :
    (((L.flatMap g).filter q).map h).sum
      = (L.map (fun w => (((g w).filter q).map h).sum)).sum := by
  induction L with
  | nil => rfl
  | cons a l ih =>
    simp only [List.flatMap_cons, List.filter_append, List.map_append,
      List.sum_append, ih, List.map_cons, List.sum_cons]

theorem wordContrib_eq_pairs (w : String) (j : ℕ) :
    wordContrib w j = (((wordPairs w).filter (fun p => p.1 == j)).map
      (fun p => p.2)).sum := by
  rw [wordContrib, wordPairs, List.filter_map, List.map_map]
  rfl

theorem rawEmbed_eq_specRawEmbed (text : String) :
    rawEmbed text = specRawEmbed text := by
  have hlen : (rawEmbed text).length = (specRawEmbed text).length := by
    rw [rawEmbed_length, specRawEmbed, List.length_map, List.length_range]
  apply List.ext_getElem hlen
  intro j hj1 hj2
  have hj : j < 256 := by
    rw [rawEmbed_length] at hj1
    exact hj1
  have hraw : (rawEmbed text).getD j 0
      = (((textPairs text).filter (fun p => p.1 == j)).map (fun p => p.2)).sum := by
    rw [rawEmbed_eq_pairs, foldl_addAt_getD _ _
      (by intro p hp; rw [List.length_replicate]; exact textPairs_lt text p hp) j,
      getD_replicate_zero, zero_add]
  have hspec : (specRawEmbed text).getD j 0
      = ((pySplit (toLowerStr text)).map (fun w => wordContrib w j)).sum := by
    rw [specRawEmbed, List.getD_eq_getElem?_getD, List.getElem?_map,
      List.getElem?_range hj]
    rfl
  have hflat : (((textPairs text).filter (fun p => p.1 == j)).map (fun p => p.2)).sum
      = ((pySplit (toLowerStr text)).map (fun w => wordContrib w j)).sum := by
    rw [textPairs, sum_flatMap_filter]
    congr 1
    apply List.map_congr_left
    intro w _
    rw [wordContrib_eq_pairs]
  rw [← List.getD_eq_getElem (rawEmbed text) 0 hj1,
    ← List.getD_eq_getElem (specRawEmbed text) 0 hj2, hraw, hspec, ← hflat]

/-- C2: the local fallback embedding equals the reference algorithm of spec
§4.1 on every input (and, being a pure function, is trivially deterministic:
two calls with the same text denote the same vector). -/
theorem C2_fallback_embedding_refines (text : String) :
    fallbackEmbedding text = referenceEmbedding text
    ∧ fallbackEmbedding text = fallbackEmbedding text := by
  refine ⟨?_, rfl⟩
  have hr := rawEmbed_eq_specRawEmbed text
  simp only [fallbackEmbedding, referenceEmbedding, hr]
  by_cases hn : norml (specRawEmbed text) = 0
  · rw [if_neg (by rw [hn]; exact lt_irrefl 0), if_neg (by simp [hn])]
  · have hpos : 0 < norml (specRawEmbed text) :=
      lt_of_le_of_ne (Real.sqrt_nonneg _) (Ne.symm hn)
    rw [if_pos hpos, if_pos hn]

theorem sumSq_nonneg (l : List ℝ) : 0 ≤ sumSq l := by
  apply List.sum_nonneg
  intro x hx
  rcases List.mem_map.mp hx with ⟨y, _, rfl⟩
  exact sq_nonneg y

theorem dotl_sq_le : ∀ (a b : List ℝ), (dotl a b) ^ 2 ≤ sumSq a * sumSq b := by
  intro a
  induction a with
  | nil =>
    intro b
    simp only [dotl, List.zipWith_nil_left, List.sum_nil]
    have := mul_nonneg (sumSq_nonneg ([] : List ℝ)) (sumSq_nonneg b)
    nlinarith
  | cons x xs ih =>
    intro b
    cases b with
    | nil =>
      simp only [dotl, List.zipWith_nil_right, List.sum_nil]
      have := mul_nonneg (sumSq_nonneg (x :: xs)) (sumSq_nonneg ([] : List ℝ))
      nlinarith
    | cons y ys =>
      have hstep : dotl (x :: xs) (y :: ys) = x * y + dotl xs ys := rfl
      have hsx : sumSq (x :: xs) = x ^ 2 + sumSq xs := rfl
      have hsy : sumSq (y :: ys) = y ^ 2 + sumSq ys := rfl
      rw [hstep, hsx, hsy]
      have hd := ih ys
      have hp := sumSq_nonneg xs
      have hq := sumSq_nonneg ys
      rcases hq.eq_or_lt with h0 | hq'
      · have hd0 : dotl xs ys = 0 := by
          have : (dotl xs ys) ^ 2 ≤ 0 := by
            calc (dotl xs ys) ^ 2 ≤ sumSq xs * sumSq ys := hd
            _ = 0 := by rw [← h0, mul_zero]
          exact pow_eq_zero_iff (by norm_num) |>.mp (le_antisymm this (sq_nonneg _))
        rw [hd0, ← h0]
        nlinarith [sq_nonneg y, mul_nonneg hp (sq_nonneg y)]
      · nlinarith [sq_nonneg (x * sumSq ys - y * dotl xs ys),
          mul_nonneg (add_nonneg (sq_nonneg y) hq) (sub_nonneg.2 hd)]

theorem abs_dotl_le (a b : List ℝ) : |dotl a b| ≤ norml a * norml b := by
  rw [← Real.sqrt_sq_eq_abs, norml, norml, ← Real.sqrt_mul (sumSq_nonneg a)]
  exact Real.sqrt_le_sqrt (dotl_sq_le a b)

theorem computeSimilarity_bounds (a b : List ℝ) :
    -1 ≤ computeSimilarity a b ∧ computeSimilarity a b ≤ 1 := by
  rw [computeSimilarity]
  by_cases h : a = [] ∨ b = []
  · rw [if_pos h]
    norm_num
  · rw [if_neg h]
    set ta := a.take (min a.length b.length) with hta
    set tb := b.take (min a.length b.length) with htb
    by_cases hn : norml ta = 0 ∨ norml tb = 0
    · rw [if_pos hn]
      norm_num
    · rw [if_neg hn]
      push_neg at hn
      have h1 : 0 < norml ta :=
        lt_of_le_of_ne (Real.sqrt_nonneg _) (Ne.symm hn.1)
      have h2 : 0 < norml tb :=
        lt_of_le_of_ne (Real.sqrt_nonneg _) (Ne.symm hn.2)
      have hm : 0 < norml ta * norml tb := mul_pos h1 h2
      have habs : |dotl ta tb| ≤ norml ta * norml tb := abs_dotl_le ta tb
      constructor
      · rw [le_div_iff₀ hm]
        calc (-1 : ℝ) * (norml ta * norml tb) = -(norml ta * norml tb) := by ring
        _ ≤ -|dotl ta tb| := by linarith
        _ ≤ dotl ta tb := neg_abs_le _
      · rw [div_le_one hm]
        exact le_of_abs_le habs

theorem dotl_comm (a b : List ℝ) : dotl a b = dotl b a := by
  rw [dotl, dotl, List.zipWith_comm_of_comm _ mul_comm]

theorem computeSimilarity_comm (a b : List ℝ) :
    computeSimilarity a b = computeSimilarity b a := by
  rw [computeSimilarity, computeSimilarity]
  by_cases h : a = [] ∨ b = []
  · rw [if_pos h, if_pos (Or.symm h)]
  · rw [if_neg h, if_neg (fun hc => h (Or.symm hc))]
    simp only [Nat.min_comm b.length a.length]
    apply if_congr or_comm rfl
    rw [dotl_comm, mul_comm]

theorem getD_nonneg (v : List ℝ) (hv : ∀ x ∈ v, 0 ≤ x) (j : ℕ) :
    0 ≤ v.getD j 0 := by
  rw [List.getD_eq_getElem?_getD]
  rcases h : v[j]? with _ | x
  · exact le_refl 0
  · exact hv x (List.getElem?_mem h)

theorem foldl_addAt_nonneg (ps : List (ℕ × ℝ)) (hw : ∀ p ∈ ps, 0 ≤ p.2) :
    ∀ (v : List ℝ), (∀ x ∈ v, 0 ≤ x) → ∀ x ∈ ps.foldl addAt v, 0 ≤ x := by
  induction ps with
  | nil => intro v hv x hx; exact hv x hx
  | cons p ps ih =>
    intro v hv x hx
    refine ih (fun q hq => hw q (List.mem_cons_of_mem p hq)) (addAt v p) ?_ x hx
    intro y hy
    rcases List.mem_or_eq_of_mem_set hy with hy' | rfl
    · exact hv y hy'
    · exact add_nonneg (getD_nonneg v hv p.1) (hw p (List.mem_cons_self p ps))

theorem textPairs_weight_nonneg (text : String) :
    ∀ p ∈ textPairs text, 0 ≤ p.2 := by
  intro p hp
  simp only [textPairs, List.mem_flatMap, wordPairs, List.mem_map] at hp
  rcases hp with ⟨w, _, q, _, hq⟩
  rw [← hq]
  have : (0 : ℝ) < (q.1 : ℝ) + 1 := by positivity
  positivity

theorem rawEmbed_nonneg (text : String) : ∀ x ∈ rawEmbed text, 0 ≤ x := by
  rw [rawEmbed_eq_pairs]
  exact foldl_addAt_nonneg _ (textPairs_weight_nonneg text) _
    (fun x hx => by rw [List.eq_of_mem_replicate hx])

theorem fallbackEmbedding_nonneg (text : String) :
    ∀ x ∈ fallbackEmbedding text, 0 ≤ x := by
  rw [fallbackEmbedding]
  by_cases hn : 0 < norml (rawEmbed text)
  · rw [if_pos hn]
    intro x hx
    rcases List.mem_map.mp hx with ⟨y, hy, rfl⟩
    exact div_nonneg (rawEmbed_nonneg text y hy) hn.le
  · rw [if_neg hn]
    exact rawEmbed_nonneg text

theorem dotl_nonneg : ∀ (a b : List ℝ), (∀ x ∈ a, 0 ≤ x) → (∀ x ∈ b, 0 ≤ x) →
    0 ≤ dotl a b := by
  intro a
  induction a with
  | nil => intro b _ _; exact le_refl 0
  | cons x xs ih =>
    intro b ha hb
    cases b with
    | nil => exact le_refl 0
    | cons y ys =>
      have : dotl (x :: xs) (y :: ys) = x * y + dotl xs ys := rfl
      rw [this]
      refine add_nonneg (mul_nonneg (ha x (List.mem_cons_self x xs))
        (hb y (List.mem_cons_self y ys))) ?_
      exact ih ys (fun z hz => ha z (List.mem_cons_of_mem x hz))
        (fun z hz => hb z (List.mem_cons_of_mem y hz))

theorem computeSimilarity_nonneg_of_nonneg (a b : List ℝ)
    (ha : ∀ x ∈ a, 0 ≤ x) (hb : ∀ x ∈ b, 0 ≤ x) :
    0 ≤ computeSimilarity a b := by
  rw [computeSimilarity]
  by_cases h : a = [] ∨ b = []
  · rw [if_pos h]
  · rw [if_neg h]
    set ta := a.take (min a.length b.length) with hta
    set tb := b.take (min a.length b.length) with htb
    by_cases hn : norml ta = 0 ∨ norml tb = 0
    · rw [if_pos hn]
    · rw [if_neg hn]
      push_neg at hn
      refine div_nonneg ?_ (mul_nonneg (Real.sqrt_nonneg _) (Real.sqrt_nonneg _))
      exact dotl_nonneg ta tb
        (fun x hx => ha x (List.mem_of_mem_take hx))
        (fun x hx => hb x (List.mem_of_mem_take hx))

/-- C3: `compute_similarity` returns 0 on an empty argument; otherwise both
vectors are truncated to the shorter length (so a dimension mismatch never
raises, and `similarity([1,0,0],[1,0]) = similarity([1,0],[1,0])`), and the
result is the cosine similarity of the truncated vectors, with 0 when either
truncated norm is exactly zero. -/
theorem C3_compute_similarity (a b : List ℝ) :
    (a = [] ∨ b = [] → computeSimilarity a b = 0)
    ∧ (a ≠ [] → b ≠ [] →
        norml (a.take (min a.length b.length)) ≠ 0 →
        norml (b.take (min a.length b.length)) ≠ 0 →
        computeSimilarity a b
          = cosineSim (a.take (min a.length b.length))
              (b.take (min a.length b.length)))
    ∧ (a ≠ [] → b ≠ [] →
        (norml (a.take (min a.length b.length)) = 0
          ∨ norml (b.take (min a.length b.length)) = 0) →
        computeSimilarity a b = 0)
    ∧ computeSimilarity [1, 0, 0] [1, 0] = computeSimilarity [1, 0] [1, 0] := by
  refine ⟨?_, ?_, ?_, ?_⟩
  · intro h
    rw [computeSimilarity, if_pos h]
  · intro h1 h2 h3 h4
    rw [computeSimilarity, if_neg (by tauto)]
    rw [if_neg (by tauto)]
    rfl
  · intro h1 h2 h3
    rw [computeSimilarity, if_neg (by tauto)]
    rw [if_pos h3]
  · have e1 : computeSimilarity [(1:ℝ), 0, 0] [1, 0] = computeSimilarity [1, 0] [1, 0] := by
      rw [computeSimilarity, computeSimilarity,
        if_neg (show ¬(([(1:ℝ), 0, 0] = []) ∨ ([(1:ℝ), 0] = [])) by simp),
        if_neg (show ¬(([(1:ℝ), 0] = []) ∨ ([(1:ℝ), 0] = [])) by simp)]
      exact rfl
    exact e1

/-- C3, witness: the empty case and the dimension-mismatch case evaluated, and
the cosine form at `[2]`, `[3]`. -/
theorem C3_witness :
    computeSimilarity [] [1] = 0
    ∧ computeSimilarity [1, 0, 0] [1, 0] = computeSimilarity [1, 0] [1, 0]
    ∧ computeSimilarity [2] [3] = cosineSim [2] [3] := by
  refine ⟨(C3_compute_similarity [] [1]).1 (Or.inl rfl),
    (C3_compute_similarity [1, 0, 0] [1, 0]).2.2.2, ?_⟩
  have h := (C3_compute_similarity [2] [3]).2.1 (by simp) (by simp)
  have hn2 : norml [(2:ℝ)] ≠ 0 := by
    rw [norml, show sumSq [(2:ℝ)] = 4 by norm_num [sumSq]]
    rw [show (4:ℝ) = 2 ^ 2 by norm_num, Real.sqrt_sq (by norm_num)]
    norm_num
  have hn3 : norml [(3:ℝ)] ≠ 0 := by
    rw [norml, show sumSq [(3:ℝ)] = 9 by norm_num [sumSq]]
    rw [show (9:ℝ) = 3 ^ 2 by norm_num, Real.sqrt_sq (by norm_num)]
    norm_num
  exact h hn2 hn3

/-- C10: `compute_similarity` lies in `[-1, 1]` for non-empty real vectors,
in `[0, 1]` whenever both arguments are outputs of the local fallback
embedding (whose components are non-negative by construction), and is
symmetric in its arguments. -/
theorem C10_similarity_bounds :
    (∀ a b : List ℝ, a ≠ [] → b ≠ [] →
      -1 ≤ computeSimilarity a b ∧ computeSimilarity a b ≤ 1)
    ∧ (∀ s t : String,
        0 ≤ computeSimilarity (fallbackEmbedding s) (fallbackEmbedding t)
        ∧ computeSimilarity (fallbackEmbedding s) (fallbackEmbedding t) ≤ 1)
    ∧ (∀ a b : List ℝ, computeSimilarity a b = computeSimilarity b a) := by
  refine ⟨fun a b _ _ => computeSimilarity_bounds a b, fun s t => ?_,
    computeSimilarity_comm⟩
  exact ⟨computeSimilarity_nonneg_of_nonneg _ _ (fallbackEmbedding_nonneg s)
      (fallbackEmbedding_nonneg t),
    (computeSimilarity_bounds _ _).2⟩

/-- C10, witness: the bounds at `[1]`, `[1]`, the fallback-embedding bounds at
two concrete strings, and symmetry at a concrete pair. -/
theorem C10_witness :
    (-1 ≤ computeSimilarity [1] [1] ∧ computeSimilarity [1] [1] ≤ 1)
    ∧ (0 ≤ computeSimilarity (fallbackEmbedding "buy milk") (fallbackEmbedding "pay bill")
       ∧ computeSimilarity (fallbackEmbedding "buy milk") (fallbackEmbedding "pay bill") ≤ 1)
    ∧ computeSimilarity [1, 2] [3, 4] = computeSimilarity [3, 4] [1, 2] :=
  ⟨C10_similarity_bounds.1 [1] [1] (by simp) (by simp),
   C10_similarity_bounds.2.1 "buy milk" "pay bill",
   C10_similarity_bounds.2.2 [1, 2] [3, 4]⟩

theorem fallbackEmbedding_length (text : String) :
    (fallbackEmbedding text).length = 256 := by
  rw [fallbackEmbedding]
  by_cases hn : 0 < norml (rawEmbed text)
  · rw [if_pos hn, List.length_map, rawEmbed_length]
  · rw [if_neg hn, rawEmbed_length]

theorem fallbackEmbedding_ne_nil (text : String) : fallbackEmbedding text ≠ [] := by
  intro hc
  have := congrArg List.length hc
  rw [fallbackEmbedding_length] at this
  exact absurd this (by norm_num)

/-- C8, counterexample: a candidate whose stored embedding is the empty list
fails Python's truthiness test `if task.get("embedding"):` and is skipped, so
it receives no similarity score even though it has a stored embedding — the
result is empty where the claim requires one scored pair. -/
theorem C8_counterexample :
    findSimilarTasks false (.error .runtimeError) "a" none [⟨0, some []⟩] 5 = []
    ∧ (⟨0, some []⟩ : EmbTask).embedding ≠ none := by
  constructor
  · have hq : getEmbedding false (.error .runtimeError)
        ("a" ++ " " ++ (none : Option String).getD "") ≠ [] :=
      fallbackEmbedding_ne_nil _
    rw [findSimilarTasks, if_neg hq]
    exact rfl
  · simp

theorem scoredOf_eq (qe : List ℝ) (tasks : List EmbTask) :
    scoredOf qe tasks = (tasks.filter hasStoredEmbedding).map
      (fun t => (t, computeSimilarity qe (embOf t))) := by
  induction tasks with
  | nil => rfl
  | cons t ts ih =>
    rcases ht : t.embedding with _ | e
    · rw [scoredOf, List.filterMap_cons, ht]
      rw [List.filter_cons, show hasStoredEmbedding t = false by
        rw [hasStoredEmbedding, ht]]
      simpa [scoredOf] using ih
    · cases e with
      | nil =>
        rw [scoredOf, List.filterMap_cons, ht]
        rw [List.filter_cons, show hasStoredEmbedding t = false by
          rw [hasStoredEmbedding, ht]]
        simpa [scoredOf] using ih
      | cons x xs =>
        rw [scoredOf, List.filterMap_cons, ht]
        rw [List.filter_cons, show hasStoredEmbedding t = true by
          rw [hasStoredEmbedding, ht]]
        simp only [if_true, List.map_cons]
        rw [show embOf t = x :: xs from by rw [embOf, ht]; rfl]
        exact congrArg (List.cons _) ih

theorem scoredOf_filter_isSome (qe : List ℝ) (db : List EmbTask) :
    scoredOf qe (db.filter (fun t => t.embedding.isSome)) = scoredOf qe db := by
  induction db with
  | nil => rfl
  | cons t ts ih =>
    rcases ht : t.embedding with _ | e
    · simp only [scoredOf, List.filter_cons, ht, Option.isSome_none,
        Bool.false_eq_true, if_false, List.filterMap_cons]
      simp only [scoredOf] at ih
      rw [ih]
    · rcases e with _ | ⟨x, xs⟩ <;>
      · simp only [scoredOf, List.filter_cons, ht, Option.isSome_some, if_true,
          List.filterMap_cons]
        simp only [scoredOf] at ih
        simp [ht, ih]

/-- C8, amended: `find_similar_tasks` scores exactly the candidates with a
*non-empty* stored embedding (Python truthiness — one score each, in original
order), sorts descending by score with ties preserving the candidates'
original relative order (stable sort), and returns at most `limit` pairs;
`semantic_search` in `task_service.py` ranks with the same logic. -/
theorem C8_ranking (available : Bool) (remote : Except PyError (List ℝ))
    (title : String) (d : Option String) (tasks : List EmbTask) (limit : ℕ) :
    (getEmbedding available remote (title ++ " " ++ d.getD "") = [] →
      findSimilarTasks available remote title d tasks limit = [])
    ∧ (getEmbedding available remote (title ++ " " ++ d.getD "") ≠ [] →
      ∃ full : List (EmbTask × ℝ),
        findSimilarTasks available remote title d tasks limit = full.take limit
        ∧ full.Pairwise (fun p q => q.2 ≤ p.2)
        ∧ (∀ s : ℝ, full.filter (fun p => decide (p.2 = s))
            = (scoredOf (getEmbedding available remote (title ++ " " ++ d.getD ""))
                tasks).filter (fun p => decide (p.2 = s)))
        ∧ (findSimilarTasks available remote title d tasks limit).length ≤ limit)
    ∧ (∀ qe : List ℝ, scoredOf qe tasks = (tasks.filter hasStoredEmbedding).map
        (fun t => (t, computeSimilarity qe (embOf t))))
    ∧ (∀ (query : String) (db : List EmbTask),
        getEmbedding available remote query ≠ [] →
        semanticSearch available remote query db limit
          = (sortDescBy (fun p : EmbTask × ℝ => p.2)
              (scoredOf (getEmbedding available remote query) db)).take limit) := by
  refine ⟨?_, ?_, fun qe => scoredOf_eq qe tasks, ?_⟩
  · intro hq
    rw [findSimilarTasks, if_pos hq]
  · intro hq
    refine ⟨sortDescBy (fun p : EmbTask × ℝ => p.2)
      (scoredOf (getEmbedding available remote (title ++ " " ++ d.getD "")) tasks),
      ?_, sortDescBy_pairwise _ _, ?_, ?_⟩
    · rw [findSimilarTasks, if_neg hq]
      exact rfl
    · intro s
      exact sortDescBy_filter (fun p : EmbTask × ℝ => p.2) _ s
    · rw [findSimilarTasks, if_neg hq]
      exact List.length_take_le limit _
  · intro query db hq
    rw [semanticSearch, if_neg hq]
    show (sortDescBy (fun p : EmbTask × ℝ => p.2)
        (scoredOf (getEmbedding available remote query)
          (db.filter (fun t => t.embedding.isSome)))).take limit
      = (sortDescBy (fun p : EmbTask × ℝ => p.2)
          (scoredOf (getEmbedding available remote query) db)).take limit
    rw [scoredOf_filter_isSome]

/-- C8, witness: an empty query embedding yields an empty result; a concrete
scoring run produces one pair per candidate with a non-empty stored
embedding; and the result length is bounded by the limit. -/
theorem C8_witness :
    findSimilarTasks true (.ok []) "q" none [⟨0, some [1]⟩] 3 = []
    ∧ scoredOf [1] [⟨0, some [1]⟩, ⟨1, none⟩]
      = [(⟨0, some [1]⟩, computeSimilarity [1] (embOf ⟨0, some [1]⟩))]
    ∧ (findSimilarTasks false (.error .runtimeError) "a" none [⟨0, some [1]⟩] 2).length ≤ 2 := by
  refine ⟨(C8_ranking true (.ok []) "q" none [⟨0, some [1]⟩] 3).1 rfl, ?_, ?_⟩
  · rw [(C8_ranking true (.ok []) "q" none [⟨0, some [1]⟩, ⟨1, none⟩] 3).2.2.1 [1]]
    rfl
  · have hq : getEmbedding false (.error .runtimeError)
        ("a" ++ " " ++ (none : Option String).getD "") ≠ [] :=
      fallbackEmbedding_ne_nil _
    rcases (C8_ranking false (.error .runtimeError) "a" none [⟨0, some [1]⟩] 2).2.1 hq
      with ⟨full, _, _, _, hlen⟩
    exact hlen
